import Mathlib

/-!
STCP sender (src/stcp/sender.c): embedding and properties

The control block, the transmit path (tcpSend), the receive path (tcpReceive), the lifecycle
functions stcp_open, stcp_send and stcp_close, and getDefaultPort are translated from
sender.c.

Conventions of the embedding.

* The header stcp.h is not part of the sources.  Its constants and helpers
  (STCP_MSS, STCP_INITIAL_TIMEOUT, stcpNextTimeout, getSyn, payloadSize, ...) are the fields of
  `Config`, and every general theorem holds for an arbitrary `Config`.
* `unsigned int` fields (seqNo, ackNo) are natural numbers; arithmetic on them is reduced
  modulo 2^32 where the C code computes it.  `int` fields are integers; signed overflow is
  undefined in C and is not modelled, so the statements describe overflow-free executions.
* The datagram channel is a script: the list of the results of the successive calls of
  readWithTimeout.  A call that needs a read beyond the end of the script has no result.
* Byte order conversion, the checksum and the diagnostic output do not influence the control
  block or the control flow and are left out.
-/

namespace STCP

/-- Header fields of a segment that sender.c reads or writes, in host byte order. -/
structure tcpheader where
  srcPort : Int
  dstPort : Int
  seqNo : Nat
  ackNo : Nat
  flags : Nat
  windowSize : Int
deriving DecidableEq, Repr

/-- A segment: the header and the payload bytes that follow it. -/
structure packet where
  hdr : tcpheader
  data : List Nat
deriving DecidableEq, Repr

/-- Constants and helper functions declared in stcp.h, which sender.c uses. -/
structure Config where
  STCP_MSS : Int
  STCP_MAXWIN : Int
  STCP_INITIAL_TIMEOUT : Int
  STCP_READ_TIMED_OUT : Int
  STCP_READ_PERMANENT_FAILURE : Int
  STCP_SENDER_CLOSED : Int
  STCP_SENDER_SYN_SENT : Int
  STCP_SENDER_ESTABLISHED : Int
  STCP_SENDER_FIN_WAIT : Int
  STCP_SENDER_CLOSING : Int
  SYN : Nat
  FIN : Nat
  ACK : Nat
  sizeofTcpheader : Int
  stcpNextTimeout : Int → Int
  getSyn : tcpheader → Bool
  getFin : tcpheader → Bool
  payloadSize : packet → Int

/-- Value of the macro STCP_SUCCESS of sender.c. -/
def STCP_SUCCESS : Int := 1

/-- Value of the macro STCP_ERROR of sender.c. -/
def STCP_ERROR : Int := -1

/-- The sender control block, field for field. -/
structure stcp_send_ctrl_blk where
  state : Int
  fd : Int
  seqNo : Nat
  ackNo : Nat
  timeout : Int
  windowSize : Int
  sendersPort : Int
  receiversPort : Int
  inFlight : Int
deriving DecidableEq, Repr

/-- One call of write: the descriptor, the segment handed over and the byte count. -/
structure Written where
  fd : Int
  pkt : packet
  size : Int
deriving DecidableEq, Repr

/-- Result of one call of readWithTimeout: the returned status and the buffer contents
(after ntohHdr).  The buffer is meaningful only when the status is a length. -/
structure ReadResult where
  status : Int
  pkt : packet
deriving DecidableEq, Repr

/-- What a lifecycle function did on the channel, in program order: a segment written by
tcpSend, or a completed call of tcpReceive made by the lifecycle function together with the
value it returned (self-calls of tcpReceive are part of that one call). -/
inductive Event where
  | sent (w : Written)
  | received (ret : Int)
deriving DecidableEq, Repr

/-- Transmit path, sender.c lines 48-66.  The pointer argument is the list of bytes readable
from it; NULL is the empty list.  Returns the control block after the call and the write. -/
def tcpSend (cfg : Config) (cb : stcp_send_ctrl_blk) (flags : Nat) (data : List Nat)
    (len : Int) : stcp_send_ctrl_blk × Written :=
  let size := cfg.sizeofTcpheader + len
  let pkt : packet :=
    { hdr :=
        { srcPort := cb.sendersPort
          dstPort := cb.receiversPort
          seqNo := cb.seqNo
          ackNo := cb.ackNo
          flags := flags
          windowSize := cfg.STCP_MAXWIN }
      data := data.take len.toNat }
  ({ cb with inFlight := cb.inFlight + size }, { fd := cb.fd, pkt := pkt, size := size })

/-- Lines 92-101 of tcpReceive: the assignments made from the segment held in the local
buffer, with packetLength the status of the read that filled it. -/
def applySegment (cfg : Config) (cb : stcp_send_ctrl_blk) (r : ReadResult) :
    stcp_send_ctrl_blk :=
  { cb with
    ackNo :=
      if cfg.getSyn r.pkt.hdr || cfg.getFin r.pkt.hdr then
        (r.pkt.hdr.seqNo + 1) % 2 ^ 32
      else
        (((r.pkt.hdr.seqNo : Int) + cfg.payloadSize r.pkt) % 2 ^ 32).toNat
    seqNo := r.pkt.hdr.ackNo
    windowSize := r.pkt.hdr.windowSize
    timeout := cfg.STCP_INITIAL_TIMEOUT
    inFlight := cb.inFlight - r.status }

/-- Outcome of a call of tcpReceive: return value, control block, unread rest of the script. -/
structure RecvOut where
  ret : Int
  cb : stcp_send_ctrl_blk
  rest : List ReadResult
deriving DecidableEq, Repr

/-- Receive path, sender.c lines 68-104.  In the duplicate branch the function calls itself,
discards what the call returns and continues at line 92 with its own buffer. -/
def tcpReceive (cfg : Config) (cb : stcp_send_ctrl_blk) : List ReadResult → Option RecvOut
  | [] => none
  | r :: rest =>
    if r.status = cfg.STCP_READ_TIMED_OUT then
      some { ret := cfg.STCP_READ_TIMED_OUT
             cb := { cb with timeout := cfg.stcpNextTimeout cb.timeout }
             rest := rest }
    else if r.status = cfg.STCP_READ_PERMANENT_FAILURE then
      some { ret := cfg.STCP_READ_PERMANENT_FAILURE, cb := cb, rest := rest }
    else if r.pkt.hdr.seqNo ≤ cb.ackNo then
      match tcpReceive cfg cb rest with
      | none => none
      | some inner =>
        some { ret := r.status, cb := applySegment cfg inner.cb r, rest := inner.rest }
    else
      some { ret := r.status, cb := applySegment cfg cb r, rest := rest }

/-- Modelled from the spec: the constants and helpers of stcp.h, which is not among the
sources.  The maximum segment size 1400 is the one of the spec's end-to-end scenario; the
timeout starts at a fixed value and doubles up to a cap; SYN, FIN and ACK are distinct flag
bits; the payload size is the number of payload bytes carried.  The remaining numbers are
sample values. -/
def sampleConfig : Config where
  STCP_MSS := 1400
  STCP_MAXWIN := 65535
  STCP_INITIAL_TIMEOUT := 1000
  STCP_READ_TIMED_OUT := -2
  STCP_READ_PERMANENT_FAILURE := -1
  STCP_SENDER_CLOSED := 0
  STCP_SENDER_SYN_SENT := 1
  STCP_SENDER_ESTABLISHED := 2
  STCP_SENDER_FIN_WAIT := 3
  STCP_SENDER_CLOSING := 4
  SYN := 2
  FIN := 1
  ACK := 16
  sizeofTcpheader := 20
  stcpNextTimeout := fun t => min (2 * t) 8000
  getSyn := fun h => h.flags &&& 2 != 0
  getFin := fun h => h.flags &&& 1 != 0
  payloadSize := fun p => p.data.length

/-- A control block of an established connection, used in the concrete evaluations. -/
def sampleCB : stcp_send_ctrl_blk where
  state := 2
  fd := 3
  seqNo := 7000
  ackNo := 100
  timeout := 2000
  windowSize := 65535
  sendersPort := 5001
  receiversPort := 5000
  inFlight := 60

/-- A read that delivers a segment of the given flags, numbers, window and payload; the
status is the total length, header included. -/
def segmentRead (flags seqNo ackNo : Nat) (window : Int) (payload : List Nat) : ReadResult where
  status := 20 + payload.length
  pkt :=
    { hdr :=
        { srcPort := 5000, dstPort := 5001, seqNo := seqNo, ackNo := ackNo, flags := flags
          windowSize := window }
      data := payload }

/-- A read that times out (sample configuration). -/
def timeoutRead : ReadResult where
  status := -2
  pkt := { hdr := { srcPort := 0, dstPort := 0, seqNo := 0, ackNo := 0, flags := 0
                    windowSize := 0 }
           data := [] }

/-- A read that fails permanently (sample configuration). -/
def failureRead : ReadResult where
  status := -1
  pkt := { hdr := { srcPort := 0, dstPort := 0, seqNo := 0, ackNo := 0, flags := 0
                    windowSize := 0 }
           data := [] }

/-- How a lifecycle function ends on a given script of reads: it returns, or the script ends
while a call of readWithTimeout is pending, or the iteration bound of the embedding is
reached (which the entry points below never do, see the adequacy lemmas). -/
inductive Run (α : Type) where
  | done (a : α)
  | blocked
  | fuelOut
deriving DecidableEq, Repr

/-- What a returned lifecycle call leaves behind: return value, control block, unread rest of
the script and the channel events of the call in program order. -/
structure CallOut where
  ret : Int
  cb : stcp_send_ctrl_blk
  rest : List ReadResult
  trace : List Event
deriving DecidableEq, Repr

/-- Events that happened before the remainder of a run are put in front of its trace. -/
def Run.after (es : List Event) : Run CallOut → Run CallOut
  | .done o => .done { o with trace := es ++ o.trace }
  | .blocked => .blocked
  | .fuelOut => .fuelOut

/-- The for loop of stcp_send, sender.c lines 124-132, entered with loop variable i.  One unit
of fuel is spent per test of the loop condition. -/
def sendLoop (cfg : Config) (data : List Nat) (length : Int) :
    Nat → Int → stcp_send_ctrl_blk → List ReadResult → Run CallOut
  | 0, _, _, _ => .fuelOut
  | fuel + 1, i, cb, reads =>
    if i < length then
      let s := tcpSend cfg cb cfg.ACK (data.drop i.toNat) (min cfg.STCP_MSS (length - i))
      match tcpReceive cfg s.1 reads with
      | none => .blocked
      | some o =>
        if o.ret = cfg.STCP_READ_TIMED_OUT then
          Run.after [.sent s.2, .received o.ret]
            (sendLoop cfg data length fuel (i - cfg.STCP_MSS + cfg.STCP_MSS) o.cb o.rest)
        else if o.ret = cfg.STCP_READ_PERMANENT_FAILURE then
          .done { ret := STCP_ERROR, cb := o.cb, rest := o.rest
                  trace := [.sent s.2, .received o.ret] }
        else
          Run.after [.sent s.2, .received o.ret]
            (sendLoop cfg data length fuel (i + cfg.STCP_MSS) o.cb o.rest)
    else
      .done { ret := STCP_SUCCESS, cb := { cb with state := cfg.STCP_SENDER_CLOSING }
              rest := reads, trace := [] }

/-- Steady-state send, sender.c lines 121-137.  Every pass through the loop body consumes at
least one read, so one more unit of fuel than there are reads is always enough. -/
def stcp_send (cfg : Config) (cb : stcp_send_ctrl_blk) (data : List Nat) (length : Int)
    (reads : List ReadResult) : Run CallOut :=
  sendLoop cfg data length (reads.length + 1) 0 cb reads

/-- Connection close, sender.c lines 206-219. -/
def stcp_close (cfg : Config) (cb : stcp_send_ctrl_blk) (reads : List ReadResult) :
    Run CallOut :=
  let s1 := tcpSend cfg cb (cfg.FIN ||| cfg.ACK) [] 0
  let cb1 := { s1.1 with state := cfg.STCP_SENDER_FIN_WAIT }
  match tcpReceive cfg cb1 reads with
  | none => .blocked
  | some o =>
    let s2 := tcpSend cfg o.cb cfg.ACK [] 0
    .done { ret := STCP_SUCCESS, cb := { s2.1 with state := cfg.STCP_SENDER_CLOSED }
            rest := o.rest, trace := [.sent s1.2, .received o.ret, .sent s2.2] }

/-- Starting from cb, each of the next n calls of tcpReceive returns a received segment:
neither the timeout code nor the failure code.  The in-flight counter, which the sends
between the calls change, has no influence on this. -/
def ackedRounds (cfg : Config) : Nat → stcp_send_ctrl_blk → List ReadResult → Bool
  | 0, _, _ => true
  | n + 1, cb, reads =>
    match tcpReceive cfg cb reads with
    | none => false
    | some o =>
      decide (o.ret ≠ cfg.STCP_READ_TIMED_OUT) && decide (o.ret ≠ cfg.STCP_READ_PERMANENT_FAILURE)
        && ackedRounds cfg n o.cb o.rest

/-- The events of rounds of the send loop: each written segment is followed by the return
value of the one call of tcpReceive made for it. -/
def rounds : List Written → List Int → List Event
  | w :: ws, r :: rs => .sent w :: .received r :: rounds ws rs
  | _, _ => []

/-- The write made by the loop body of stcp_send when it is entered with loop variable i and
control block cb: line 125, tcpSend with flag ACK, pointer data + i and length
min(STCP_MSS, length - i). -/
def chunkWrite (cfg : Config) (data : List Nat) (length : Int) (i : Int)
    (cb : stcp_send_ctrl_blk) : Written :=
  (tcpSend cfg cb cfg.ACK (data.drop i.toNat) (min cfg.STCP_MSS (length - i))).2

/-- The control block with which the loop body of stcp_send calls tcpReceive at line 126. -/
def chunkSent (cfg : Config) (data : List Nat) (length : Int) (i : Int)
    (cb : stcp_send_ctrl_blk) : stcp_send_ctrl_blk :=
  (tcpSend cfg cb cfg.ACK (data.drop i.toNat) (min cfg.STCP_MSS (length - i))).1

/-- The control block with which stcp_close calls tcpReceive at line 212. -/
def closeSent (cfg : Config) (cb : stcp_send_ctrl_blk) : stcp_send_ctrl_blk :=
  { (tcpSend cfg cb (cfg.FIN ||| cfg.ACK) [] 0).1 with state := cfg.STCP_SENDER_FIN_WAIT }

/-- The payload that the loop body of stcp_send copies when the loop variable is j: the
bytes at data + j, as many as min(STCP_MSS, length - j). -/
def chunkAt (cfg : Config) (data : List Nat) (length : Int) (j : Int) : List Nat :=
  (data.drop j.toNat).take (min cfg.STCP_MSS (length - j)).toNat

/-- The control block after further bytes have been counted as in flight. -/
def moreInFlight (d : Int) (cb : stcp_send_ctrl_blk) : stcp_send_ctrl_blk :=
  { cb with inFlight := cb.inFlight + d }

/-- What a returned call of stcp_open leaves behind: the returned pointer (none is NULL,
otherwise the control block it points to), the unread rest of the script and the channel
events of the call in program order. -/
structure OpenOut where
  ret : Option stcp_send_ctrl_blk
  rest : List ReadResult
  trace : List Event
deriving DecidableEq, Repr

/-- Events that happened before the remainder of a run of stcp_open are put in front of its
trace. -/
def Run.afterOpen (es : List Event) : Run OpenOut → Run OpenOut
  | .done o => .done { o with trace := es ++ o.trace }
  | .blocked => .blocked
  | .fuelOut => .fuelOut

/-- The control block filled in by stcp_open, sender.c lines 166-175, with fd the value returned
by udp_open and rnd the value returned by rand. -/
def openInit (cfg : Config) (fd : Int) (rnd : Nat) (sendersPort receiversPort : Int) :
    stcp_send_ctrl_blk where
  state := cfg.STCP_SENDER_CLOSED
  seqNo := rnd % 4294967296
  ackNo := 0
  fd := fd
  timeout := cfg.STCP_INITIAL_TIMEOUT
  windowSize := cfg.STCP_MAXWIN
  sendersPort := sendersPort
  receiversPort := receiversPort
  inFlight := 0

/-- The while loop of stcp_open, sender.c lines 177-190, together with lines 192-194 that
follow the break.  One unit of fuel is spent per pass. -/
def openLoop (cfg : Config) : Nat → stcp_send_ctrl_blk → List ReadResult → Run OpenOut
  | 0, _, _ => .fuelOut
  | fuel + 1, cb, reads =>
    let s := tcpSend cfg cb cfg.SYN [] 0
    let cb1 := { s.1 with state := cfg.STCP_SENDER_SYN_SENT }
    match tcpReceive cfg cb1 reads with
    | none => .blocked
    | some o =>
      if o.ret = cfg.STCP_READ_TIMED_OUT then
        Run.afterOpen [.sent s.2, .received o.ret] (openLoop cfg fuel o.cb o.rest)
      else if o.ret = cfg.STCP_READ_PERMANENT_FAILURE then
        .done { ret := none, rest := o.rest, trace := [.sent s.2, .received o.ret] }
      else
        .done { ret := some { o.cb with state := cfg.STCP_SENDER_ESTABLISHED }
                rest := o.rest, trace := [.sent s.2, .received o.ret] }

/-- Connection open, sender.c lines 154-195.  The destination string only reaches udp_open and
the log; fd is what udp_open returned and rnd what rand returned.  Every pass through the loop
consumes at least one read, so one more unit of fuel than there are reads is always enough. -/
def stcp_open (cfg : Config) (fd : Int) (rnd : Nat) (sendersPort receiversPort : Int)
    (reads : List ReadResult) : Run OpenOut :=
  openLoop cfg (reads.length + 1) (openInit cfg fd rnd sendersPort receiversPort) reads

/-- The control block with which the loop of stcp_open, entered with cb, makes its call number
n + 1 of tcpReceive when the n calls before it timed out: n + 1 SYN segments are counted as in
flight and the timeout has been advanced n times. -/
def synSent (cfg : Config) (n : Nat) (cb : stcp_send_ctrl_blk) : stcp_send_ctrl_blk :=
  { cb with
    state := cfg.STCP_SENDER_SYN_SENT
    timeout := Nat.iterate cfg.stcpNextTimeout n cb.timeout
    inFlight := cb.inFlight + (n + 1) * (cfg.sizeofTcpheader + 0) }

/-- The segment that the loop of stcp_open writes when it is entered with cb: line 178. -/
def synWrite (cfg : Config) (cb : stcp_send_ctrl_blk) : Written :=
  (tcpSend cfg cb cfg.SYN [] 0).2

/-- Outcome of several calls of tcpReceive in a row: the values returned, the control block and
the unread rest of the script. -/
structure CallsOut where
  rets : List Int
  cb : stcp_send_ctrl_blk
  rest : List ReadResult
deriving DecidableEq, Repr

/-- Call tcpReceive n times in a row on the same control block. -/
def receiveCalls (cfg : Config) : Nat → stcp_send_ctrl_blk → List ReadResult → Option CallsOut
  | 0, cb, reads => some { rets := [], cb := cb, rest := reads }
  | n + 1, cb, reads =>
    match tcpReceive cfg cb reads with
    | none => none
    | some o =>
      match receiveCalls cfg n o.cb o.rest with
      | none => none
      | some c => some { c with rets := o.ret :: c.rets }

/-- Total size of the segments written in a trace. -/
def sentBytes : List Event → Int
  | [] => 0
  | .sent w :: es => w.size + sentBytes es
  | .received _ :: es => sentBytes es

/-- Total length of the segments delivered by a list of reads: the statuses that are neither
the timeout code nor the failure code. -/
def segBytes (cfg : Config) : List ReadResult → Int
  | [] => 0
  | r :: rs =>
    if r.status = cfg.STCP_READ_TIMED_OUT then segBytes cfg rs
    else if r.status = cfg.STCP_READ_PERMANENT_FAILURE then segBytes cfg rs
    else r.status + segBytes cfg rs

/-- Default port, sender.c lines 227-232, with uid the value returned by getuid (uid_t is a
32-bit unsigned type, so the arithmetic is unsigned and the result converted to int).  The
result is none when the assertion fails. -/
def getDefaultPort (uid : Nat) : Option Int :=
  let port : Int := (((uid % 2 ^ 32) % (32768 - 512) * 2 + 1024) % 2 ^ 32 : Nat)
  if port ≥ 1024 ∧ port ≤ 65535 - 1 then some port else none

/-- The control block that a run of stcp_open returned, with the unread rest of the script;
none when the run did not return or returned NULL. -/
def Run.opened : Run OpenOut → Option (stcp_send_ctrl_blk × List ReadResult)
  | .done o => o.ret.map (fun c => (c, o.rest))
  | _ => none

/-- The return value and control block that a run of stcp_send or stcp_close ended with; none
when the run did not return. -/
def Run.final : Run CallOut → Option (Int × stcp_send_ctrl_blk)
  | .done o => some (o.ret, o.cb)
  | _ => none

/-- How stcp_send classifies the value returned by a call of tcpReceive, sender.c lines
127-131: the timeout code; otherwise the failure code; otherwise a received segment. -/
inductive Outcome where
  | timedOut
  | failed
  | received
deriving DecidableEq, Repr

/-- The value returned falls in the given class. -/
def outcomeHolds (cfg : Config) (oc : Outcome) (ret : Int) : Bool :=
  match oc with
  | .timedOut => decide (ret = cfg.STCP_READ_TIMED_OUT)
  | .failed =>
    decide (ret ≠ cfg.STCP_READ_TIMED_OUT) && decide (ret = cfg.STCP_READ_PERMANENT_FAILURE)
  | .received =>
    decide (ret ≠ cfg.STCP_READ_TIMED_OUT) && decide (ret ≠ cfg.STCP_READ_PERMANENT_FAILURE)

/-- Starting from cb, the successive calls of tcpReceive return values of the classes listed.
The in-flight counter, which the sends between the calls change, has no influence on this. -/
def outcomeRounds (cfg : Config) : List Outcome → stcp_send_ctrl_blk → List ReadResult → Bool
  | [], _, _ => true
  | oc :: ocs, cb, reads =>
    match tcpReceive cfg cb reads with
    | none => false
    | some o => outcomeHolds cfg oc o.ret && outcomeRounds cfg ocs o.cb o.rest

/-- The loop variable of stcp_send after a round entered with i: advanced by STCP_MSS after a
received segment, unchanged after a timeout (and not used again after a failure). -/
def nextOffset (mss : Int) (i : Int) : Outcome → Int
  | .received => i + mss
  | _ => i

/-- The values of the loop variable of stcp_send at its successive sends, when the loop is
entered with i and the calls of tcpReceive have the outcomes listed. -/
def loopOffsets (mss : Int) : Int → List Outcome → List Int
  | _, [] => []
  | i, oc :: ocs => i :: loopOffsets mss (nextOffset mss i oc) ocs

/-- The listed outcomes are those of a whole run of the loop of stcp_send entered with i: the
loop condition i < length holds before every round, and the list ends with a failure or when the
loop condition fails. -/
def coversBuffer (mss length : Int) : Int → List Outcome → Bool
  | i, [] => decide (length ≤ i)
  | i, oc :: ocs =>
    decide (i < length) &&
      (if oc = Outcome.failed then ocs.isEmpty
       else coversBuffer mss length (nextOffset mss i oc) ocs)

end STCP

/-!
SMTP server (src/pa_smtp/mysmtpd.c): embedding of the command functions

Strings are lists of characters.  The connection is an oracle for the values returned by the
successive calls of send_formatted and a script of the lines delivered by nb_read_line.  The
helpers of mailuser.h are parameters; a user list is the list of the names it holds.  Buffer
sizes are not modelled.
-/

namespace SMTP

/-- The enumeration State of mysmtpd.c. -/
inductive State where
  | Undefined
  | idle
  | sending
deriving DecidableEq, Repr

/-- The fields of smtp_state that the command functions read or write. -/
structure smtp_state where
  fd : Int
  recvbuf : List Char
  words : List (List Char)
  nwords : Int
  state : State
  sender : List Char
  receivers : List (List Char)
  mail_content : List Char
deriving DecidableEq, Repr

/-- Helper functions of mailuser.h that the command functions call. -/
structure Helpers where
  is_valid_user : List Char → Bool
  user_list_add : List (List Char) → List Char → List (List Char)

/-- One call of send_formatted: the three-digit code the format string starts with, the rest
of the format string up to the line end, and the string arguments. -/
structure Reply where
  code : Nat
  text : String
  args : List (List Char)
deriving DecidableEq, Repr

/-- The connection as the command functions see it: the value that call number k of
send_formatted returns, the number of calls made so far, and the lines that the following
calls of nb_read_line deliver. -/
structure Net where
  sendStatus : Nat → Int
  sendCount : Nat
  lines : List (List Char)

/-- What a command function leaves behind: return value, state, connection, the calls of
send_formatted in order with the value each returned, and the calls of save_user_mail (mail
text and recipients). -/
structure CmdOut where
  ret : Int
  ms : smtp_state
  net : Net
  replies : List (Reply × Int)
  saved : List (List Char × List (List Char))

/-- How a command function ends: it returns, or the script of lines ends while do_data waits
for the next line; the replies made until then are kept. -/
inductive CmdRun where
  | done (out : CmdOut)
  | blocked (replies : List (Reply × Int))

/-- The calls of send_formatted made in a run. -/
def CmdRun.replies : CmdRun → List (Reply × Int)
  | .done out => out.replies
  | .blocked rs => rs

/-- One call of send_formatted: the value returned and the connection afterwards. -/
def send_formatted (net : Net) : Int × Net :=
  (net.sendStatus net.sendCount, { net with sendCount := net.sendCount + 1 })

/-- The reply 501 of syntax_error. -/
def reply501 : Reply :=
  { code := 501, text := "501 %s", args := ["Syntax error in parameters or arguments".toList] }

/-- The reply 503 of checkstate. -/
def reply503 : Reply :=
  { code := 503, text := "503 %s", args := ["Bad sequence of commands".toList] }

/-- The reply 250 of do_mail, do_rcpt and do_data. -/
def reply250 : Reply :=
  { code := 250, text := "250 Requested mail action ok, completed", args := [] }

/-- The reply 354 of do_data. -/
def reply354 : Reply :=
  { code := 354, text := "354 Waiting for data, finish with <CR><LF>.<CR><LF>", args := [] }

/-- The reply 550 of do_rcpt. -/
def reply550 (user : List Char) : Reply :=
  { code := 550, text := "550 No such user - %s", args := [user] }

/-- Function syntax_error, mysmtpd.c lines 51-57. -/
def syntax_error (ms : smtp_state) (net : Net) : CmdOut :=
  let s := send_formatted net
  if s.1 ≤ 0 then { ret := -1, ms := ms, net := s.2, replies := [(reply501, s.1)], saved := [] }
  else { ret := 1, ms := ms, net := s.2, replies := [(reply501, s.1)], saved := [] }

/-- Function checkstate, mysmtpd.c lines 63-71. -/
def checkstate (ms : smtp_state) (st : State) (net : Net) : CmdOut :=
  if ms.state ≠ st then
    let s := send_formatted net
    if s.1 ≤ 0 then
      { ret := -1, ms := ms, net := s.2, replies := [(reply503, s.1)], saved := [] }
    else { ret := 1, ms := ms, net := s.2, replies := [(reply503, s.1)], saved := [] }
  else { ret := 0, ms := ms, net := net, replies := [], saved := [] }

/-- Function init, mysmtpd.c lines 102-107. -/
def init (ms : smtp_state) : smtp_state :=
  { ms with receivers := [], mail_content := [], state := State.idle }

/-- The replies of an earlier step are put in front of those of the step that follows. -/
def CmdOut.after (rs : List (Reply × Int)) (out : CmdOut) : CmdOut :=
  { out with replies := rs ++ out.replies }

/-- Function do_mail, mysmtpd.c lines 121-139. -/
def do_mail (ms : smtp_state) (net : Net) : CmdRun :=
  let c := checkstate ms State.idle net
  if c.ret ≠ 0 then .done { c with ret := 1 }
  else
    let w := c.ms.words.getD 1 []
    if c.ms.nwords ≠ 2 then .done ((syntax_error c.ms c.net).after c.replies)
    else if ¬ (['F', 'R', 'O', 'M', ':', '<'].isPrefixOf w) then
      .done ((syntax_error c.ms c.net).after c.replies)
    else if w.getLast? ≠ some '>' then .done ((syntax_error c.ms c.net).after c.replies)
    else
      let ms1 := { c.ms with sender := (w.drop 6).take (w.length - 7) }
      let s := send_formatted c.net
      let ms2 := { init ms1 with state := State.sending }
      .done { ret := if s.1 ≥ 0 then 0 else 1, ms := ms2, net := s.2
              replies := c.replies ++ [(reply250, s.1)], saved := [] }

/-- Function do_rcpt, mysmtpd.c lines 141-162. -/
def do_rcpt (H : Helpers) (ms : smtp_state) (net : Net) : CmdRun :=
  let c := checkstate ms State.sending net
  if c.ret ≠ 0 then .done { c with ret := 1 }
  else
    let w := c.ms.words.getD 1 []
    if c.ms.nwords ≠ 2 then .done ((syntax_error c.ms c.net).after c.replies)
    else if ¬ (['T', 'O', ':', '<'].isPrefixOf w) then
      .done ((syntax_error c.ms c.net).after c.replies)
    else if w.getLast? ≠ some '>' then .done ((syntax_error c.ms c.net).after c.replies)
    else
      let user := (w.drop 4).take (w.length - 5)
      if ¬ H.is_valid_user user then
        let s := send_formatted c.net
        .done { ret := 1, ms := c.ms, net := s.2
                replies := c.replies ++ [(reply550 user, s.1)], saved := [] }
      else
        let ms1 := { c.ms with receivers := H.user_list_add c.ms.receivers user }
        let s := send_formatted c.net
        .done { ret := if s.1 ≥ 0 then 0 else 1, ms := ms1, net := s.2
                replies := c.replies ++ [(reply250, s.1)], saved := [] }

/-- The loop of do_data, mysmtpd.c lines 178-185: lines are appended to the mail text, a leading
dot removed, until a line that consists of a dot and the line end.  Returns the last line read
(the content of recvbuf), the mail text and the lines left; none when the script of lines ends
first. -/
def readData : List (List Char) → List Char → Option (List Char × List Char × List (List Char))
  | [], _ => none
  | l :: ls, content =>
    if l = ['.', Char.ofNat 10] ∨ l = ['.', Char.ofNat 13, Char.ofNat 10] then
      some (l, content, ls)
    else if ['.'].isPrefixOf l then readData ls (content ++ l.drop 1)
    else readData ls (content ++ l)

/-- Function do_data, mysmtpd.c lines 164-200. -/
def do_data (ms : smtp_state) (net : Net) : CmdRun :=
  let c := checkstate ms State.sending net
  if c.ret ≠ 0 then .done { c with ret := 1 }
  else if c.ms.receivers.length = 0 then
    let c2 := checkstate c.ms State.idle c.net
    .done { (c2.after c.replies) with ret := 1 }
  else if c.ms.nwords ≠ 1 then .done ((syntax_error c.ms c.net).after c.replies)
  else
    let s := send_formatted c.net
    if s.1 < 0 then
      .done { ret := 1, ms := c.ms, net := s.2, replies := c.replies ++ [(reply354, s.1)]
              saved := [] }
    else
      match readData s.2.lines c.ms.mail_content with
      | none => .blocked (c.replies ++ [(reply354, s.1)])
      | some (buf, content, rest) =>
        let ms1 := { c.ms with recvbuf := buf, mail_content := content }
        let s2 := send_formatted { s.2 with lines := rest }
        let ms2 := { ms1 with state := State.idle }
        .done { ret := if s2.1 ≥ 0 then 0 else 1
                ms := if s2.1 ≥ 0 then init ms2 else ms2
                net := s2.2
                replies := c.replies ++ [(reply354, s.1), (reply250, s2.1)]
                saved := [(content, ms1.receivers)] }

/-- A state for the concrete evaluations: after MAIL, with no recipient yet, and the words of
the command line given. -/
def sampleState (st : State) (words : List (List Char)) (receivers : List (List Char)) :
    smtp_state where
  fd := 4
  recvbuf := []
  words := words
  nwords := words.length
  state := st
  sender := ['a']
  receivers := receivers
  mail_content := []

/-- A connection on which every send succeeds with 10 bytes and the given lines arrive. -/
def sampleNet (lines : List (List Char)) : Net where
  sendStatus := fun _ => 10
  sendCount := 0
  lines := lines

end SMTP

namespace STCP

/-! ## The receive path -/

/-- A read whose status is the timeout code: the first branch of tcpReceive. -/
theorem tcpReceive_timedOut (cfg : Config) (cb : stcp_send_ctrl_blk) (r : ReadResult)
    (rest : List ReadResult) (h : r.status = cfg.STCP_READ_TIMED_OUT) :
    tcpReceive cfg cb (r :: rest) =
      some { ret := cfg.STCP_READ_TIMED_OUT
             cb := { cb with timeout := cfg.stcpNextTimeout cb.timeout }
             rest := rest } := by
  simp [tcpReceive, h]

/-- A read whose status is the failure code (and not the timeout code): the second branch. -/
theorem tcpReceive_failed (cfg : Config) (cb : stcp_send_ctrl_blk) (r : ReadResult)
    (rest : List ReadResult) (hT : r.status ≠ cfg.STCP_READ_TIMED_OUT)
    (hF : r.status = cfg.STCP_READ_PERMANENT_FAILURE) :
    tcpReceive cfg cb (r :: rest) =
      some { ret := cfg.STCP_READ_PERMANENT_FAILURE, cb := cb, rest := rest } := by
  unfold tcpReceive
  rw [if_neg hT, if_pos hF]

/-- A read that delivers a segment above the acknowledgment number: the last branch. -/
theorem tcpReceive_fresh (cfg : Config) (cb : stcp_send_ctrl_blk) (r : ReadResult)
    (rest : List ReadResult) (hT : r.status ≠ cfg.STCP_READ_TIMED_OUT)
    (hF : r.status ≠ cfg.STCP_READ_PERMANENT_FAILURE) (hnew : cb.ackNo < r.pkt.hdr.seqNo) :
    tcpReceive cfg cb (r :: rest) =
      some { ret := r.status, cb := applySegment cfg cb r, rest := rest } := by
  simp [tcpReceive, hT, hF, Nat.not_le.mpr hnew]

/-- A read that delivers a segment at or below the acknowledgment number: the result of the
retried reception is overwritten with the values of the duplicate. -/
theorem tcpReceive_duplicate (cfg : Config) (cb : stcp_send_ctrl_blk) (r : ReadResult)
    (rest : List ReadResult) (hT : r.status ≠ cfg.STCP_READ_TIMED_OUT)
    (hF : r.status ≠ cfg.STCP_READ_PERMANENT_FAILURE) (hdup : r.pkt.hdr.seqNo ≤ cb.ackNo) :
    tcpReceive cfg cb (r :: rest) =
      (tcpReceive cfg cb rest).map
        (fun inner => { ret := r.status, cb := applySegment cfg inner.cb r, rest := inner.rest }) := by
  simp only [tcpReceive, hT, hF, hdup, if_true, if_false]
  cases tcpReceive cfg cb rest <;> rfl

/-- C1, evaluation at the failing input.  The control block has ackNo 100, seqNo 7000 and
window 65535.  The first read delivers a duplicate (header seqNo 50, ackNo 9000, window 512,
three payload bytes).  When the retried read times out, the three fields end as 53, 9000 and
512 instead of keeping their values; when the retried read delivers a new segment (seqNo 200,
ackNo 9100, window 300), which alone would give 201, 9100 and 300, they end as 53, 9000 and
512 as well. -/
theorem tcpReceive_duplicate_changes_fields :
    (sampleCB.ackNo = 100 ∧ sampleCB.seqNo = 7000 ∧ sampleCB.windowSize = 65535) ∧
    (tcpReceive sampleConfig sampleCB [segmentRead 16 50 9000 512 [1, 2, 3], timeoutRead]).map
        (fun o => (o.cb.ackNo, o.cb.seqNo, o.cb.windowSize)) = some (53, 9000, 512) ∧
    (tcpReceive sampleConfig sampleCB [segmentRead 16 200 9100 300 [4]]).map
        (fun o => (o.cb.ackNo, o.cb.seqNo, o.cb.windowSize)) = some (201, 9100, 300) ∧
    (tcpReceive sampleConfig sampleCB
        [segmentRead 16 50 9000 512 [1, 2, 3], segmentRead 16 200 9100 300 [4]]).map
        (fun o => (o.cb.ackNo, o.cb.seqNo, o.cb.windowSize)) = some (53, 9000, 512) := by
  decide

/-- C2, evaluation at the failing input.  The control block has timeout 2000, so a timed-out
reception alone returns the timeout code -2 and leaves timeout 4000.  After a duplicate of
total length 23, a retried read that times out makes tcpReceive return 23 with timeout 1000
(the initial value), and a retried read that fails permanently makes it return 23 instead of
the failure code -1. -/
theorem tcpReceive_duplicate_hides_retry :
    (tcpReceive sampleConfig sampleCB [timeoutRead]).map (fun o => (o.ret, o.cb.timeout))
      = some (-2, 4000) ∧
    (tcpReceive sampleConfig sampleCB [segmentRead 16 50 9000 512 [1, 2, 3], timeoutRead]).map
        (fun o => (o.ret, o.cb.timeout)) = some (23, 1000) ∧
    (tcpReceive sampleConfig sampleCB [failureRead]).map (fun o => o.ret) = some (-1) ∧
    (tcpReceive sampleConfig sampleCB [segmentRead 16 50 9000 512 [1, 2, 3], failureRead]).map
        (fun o => o.ret) = some 23 := by
  decide

/-- C3 as stated fails: a new SYN segment with header seqNo 500 arrives at a control block
with ackNo 100; afterwards ackNo is 501, not 101. -/
theorem tcpReceive_syn_not_old_plus_one :
    sampleCB.ackNo < (segmentRead 2 500 9000 512 []).pkt.hdr.seqNo ∧
    sampleConfig.getSyn (segmentRead 2 500 9000 512 []).pkt.hdr = true ∧
    (tcpReceive sampleConfig sampleCB [segmentRead 2 500 9000 512 []]).map (fun o => o.cb.ackNo)
      = some 501 ∧
    (501 : Nat) ≠ (sampleCB.ackNo + 1) % 2 ^ 32 := by
  decide

/-- C3, amended: after tcpReceive has received a new segment (header seqNo above cb.ackNo)
with the SYN or the FIN flag set, whatever its payload, cb.ackNo is the header seqNo of the
segment plus 1, modulo 2^32. -/
theorem tcpReceive_control_flag_ackNo (cfg : Config) (cb : stcp_send_ctrl_blk) (r : ReadResult)
    (rest : List ReadResult) (hT : r.status ≠ cfg.STCP_READ_TIMED_OUT)
    (hF : r.status ≠ cfg.STCP_READ_PERMANENT_FAILURE) (hnew : cb.ackNo < r.pkt.hdr.seqNo)
    (hflag : cfg.getSyn r.pkt.hdr = true ∨ cfg.getFin r.pkt.hdr = true) :
    ∃ o, tcpReceive cfg cb (r :: rest) = some o ∧
      o.cb.ackNo = (r.pkt.hdr.seqNo + 1) % 2 ^ 32 := by
  refine ⟨_, tcpReceive_fresh cfg cb r rest hT hF hnew, ?_⟩
  have hb : (cfg.getSyn r.pkt.hdr || cfg.getFin r.pkt.hdr) = true := by
    rcases hflag with h | h <;> simp [h]
  simp [applySegment, hb]

/-- Instance of the amended C3: a FIN segment with seqNo 500 and two payload bytes. -/
theorem tcpReceive_control_flag_ackNo_witness :
    ∃ o, tcpReceive sampleConfig sampleCB [segmentRead 1 500 9000 512 [8, 9]] = some o ∧
      o.cb.ackNo = (500 + 1) % 2 ^ 32 :=
  tcpReceive_control_flag_ackNo sampleConfig sampleCB (segmentRead 1 500 9000 512 [8, 9]) []
    (by decide) (by decide) (by decide) (Or.inr (by decide))

/-- C4 as stated fails: a new data segment with header seqNo 500 and three payload bytes
arrives at a control block with ackNo 100; afterwards ackNo is 503, not 103. -/
theorem tcpReceive_data_not_old_plus_len :
    sampleCB.ackNo < (segmentRead 16 500 9000 512 [1, 2, 3]).pkt.hdr.seqNo ∧
    sampleConfig.getSyn (segmentRead 16 500 9000 512 [1, 2, 3]).pkt.hdr = false ∧
    sampleConfig.getFin (segmentRead 16 500 9000 512 [1, 2, 3]).pkt.hdr = false ∧
    sampleConfig.payloadSize (segmentRead 16 500 9000 512 [1, 2, 3]).pkt = 3 ∧
    (tcpReceive sampleConfig sampleCB [segmentRead 16 500 9000 512 [1, 2, 3]]).map
      (fun o => o.cb.ackNo) = some 503 ∧
    (503 : Nat) ≠ (sampleCB.ackNo + 3) % 2 ^ 32 := by
  decide

/-- C4, amended: after tcpReceive has received a new segment (header seqNo above cb.ackNo)
with neither SYN nor FIN set and payload length L, cb.ackNo is the header seqNo of the segment
plus L, modulo 2^32. -/
theorem tcpReceive_data_ackNo (cfg : Config) (cb : stcp_send_ctrl_blk) (r : ReadResult)
    (rest : List ReadResult) (L : Int) (hT : r.status ≠ cfg.STCP_READ_TIMED_OUT)
    (hF : r.status ≠ cfg.STCP_READ_PERMANENT_FAILURE) (hnew : cb.ackNo < r.pkt.hdr.seqNo)
    (hsyn : cfg.getSyn r.pkt.hdr = false) (hfin : cfg.getFin r.pkt.hdr = false)
    (hL : cfg.payloadSize r.pkt = L) :
    ∃ o, tcpReceive cfg cb (r :: rest) = some o ∧
      (o.cb.ackNo : Int) = ((r.pkt.hdr.seqNo : Int) + L) % 2 ^ 32 := by
  refine ⟨_, tcpReceive_fresh cfg cb r rest hT hF hnew, ?_⟩
  simp only [applySegment, hsyn, hfin, hL, Bool.or_self, Bool.false_eq_true, if_false]
  exact Int.toNat_of_nonneg (Int.emod_nonneg _ (by norm_num))

/-- Instance of the amended C4: a data segment with seqNo 500 and three payload bytes. -/
theorem tcpReceive_data_ackNo_witness :
    ∃ o, tcpReceive sampleConfig sampleCB [segmentRead 16 500 9000 512 [1, 2, 3]] = some o ∧
      (o.cb.ackNo : Int) = ((500 : Nat) + 3) % 2 ^ 32 :=
  tcpReceive_data_ackNo sampleConfig sampleCB (segmentRead 16 500 9000 512 [1, 2, 3]) [] 3
    (by decide) (by decide) (by decide) (by decide) (by decide) (by decide)

/-- C5: when the read times out, tcpReceive returns STCP_READ_TIMED_OUT, cb.timeout becomes
stcpNextTimeout of its old value, and state, fd, seqNo, ackNo, windowSize, sendersPort,
receiversPort and inFlight keep their values. -/
theorem tcpReceive_timeout_outcome (cfg : Config) (cb : stcp_send_ctrl_blk) (r : ReadResult)
    (rest : List ReadResult) (h : r.status = cfg.STCP_READ_TIMED_OUT) :
    ∃ o, tcpReceive cfg cb (r :: rest) = some o ∧
      o.ret = cfg.STCP_READ_TIMED_OUT ∧
      o.cb.timeout = cfg.stcpNextTimeout cb.timeout ∧
      o.cb.state = cb.state ∧ o.cb.fd = cb.fd ∧ o.cb.seqNo = cb.seqNo ∧
      o.cb.ackNo = cb.ackNo ∧ o.cb.windowSize = cb.windowSize ∧
      o.cb.sendersPort = cb.sendersPort ∧ o.cb.receiversPort = cb.receiversPort ∧
      o.cb.inFlight = cb.inFlight :=
  ⟨_, tcpReceive_timedOut cfg cb r rest h, rfl, rfl, rfl, rfl, rfl, rfl, rfl, rfl, rfl, rfl⟩

/-- Instance of C5: timeout 2000 becomes 4000 in the sample configuration. -/
theorem tcpReceive_timeout_outcome_witness :
    ∃ o, tcpReceive sampleConfig sampleCB [timeoutRead] = some o ∧
      o.ret = sampleConfig.STCP_READ_TIMED_OUT ∧
      o.cb.timeout = sampleConfig.stcpNextTimeout sampleCB.timeout ∧
      o.cb.state = sampleCB.state ∧ o.cb.fd = sampleCB.fd ∧ o.cb.seqNo = sampleCB.seqNo ∧
      o.cb.ackNo = sampleCB.ackNo ∧ o.cb.windowSize = sampleCB.windowSize ∧
      o.cb.sendersPort = sampleCB.sendersPort ∧ o.cb.receiversPort = sampleCB.receiversPort ∧
      o.cb.inFlight = sampleCB.inFlight :=
  tcpReceive_timeout_outcome sampleConfig sampleCB timeoutRead [] (by decide)

/-- C6: when the read delivers a segment of received length n with header seqNo above
cb.ackNo, tcpReceive returns n, cb.seqNo is the ackNo field of the segment, cb.windowSize its
windowSize field, cb.timeout is STCP_INITIAL_TIMEOUT, cb.inFlight is its old value minus n,
and state, fd, sendersPort and receiversPort keep their values. -/
theorem tcpReceive_new_segment_effect (cfg : Config) (cb : stcp_send_ctrl_blk) (r : ReadResult)
    (rest : List ReadResult) (n : Int) (hn : r.status = n)
    (hT : n ≠ cfg.STCP_READ_TIMED_OUT) (hF : n ≠ cfg.STCP_READ_PERMANENT_FAILURE)
    (hnew : cb.ackNo < r.pkt.hdr.seqNo) :
    ∃ o, tcpReceive cfg cb (r :: rest) = some o ∧
      o.ret = n ∧
      o.cb.seqNo = r.pkt.hdr.ackNo ∧
      o.cb.windowSize = r.pkt.hdr.windowSize ∧
      o.cb.timeout = cfg.STCP_INITIAL_TIMEOUT ∧
      o.cb.inFlight = cb.inFlight - n ∧
      o.cb.state = cb.state ∧ o.cb.fd = cb.fd ∧
      o.cb.sendersPort = cb.sendersPort ∧ o.cb.receiversPort = cb.receiversPort := by
  subst hn
  exact ⟨_, tcpReceive_fresh cfg cb r rest hT hF hnew, rfl, rfl, rfl, rfl, rfl, rfl, rfl, rfl, rfl⟩

/-- Instance of C6: a data segment of total length 23 with seqNo 500, ackNo 9000, window 512. -/
theorem tcpReceive_new_segment_effect_witness :
    ∃ o, tcpReceive sampleConfig sampleCB [segmentRead 16 500 9000 512 [1, 2, 3]] = some o ∧
      o.ret = 23 ∧
      o.cb.seqNo = (segmentRead 16 500 9000 512 [1, 2, 3]).pkt.hdr.ackNo ∧
      o.cb.windowSize = (segmentRead 16 500 9000 512 [1, 2, 3]).pkt.hdr.windowSize ∧
      o.cb.timeout = sampleConfig.STCP_INITIAL_TIMEOUT ∧
      o.cb.inFlight = sampleCB.inFlight - 23 ∧
      o.cb.state = sampleCB.state ∧ o.cb.fd = sampleCB.fd ∧
      o.cb.sendersPort = sampleCB.sendersPort ∧ o.cb.receiversPort = sampleCB.receiversPort :=
  tcpReceive_new_segment_effect sampleConfig sampleCB (segmentRead 16 500 9000 512 [1, 2, 3]) []
    23 (by decide) (by decide) (by decide) (by decide)

/-! ## General facts about tcpReceive used by the lifecycle functions -/

/-- Every call of tcpReceive that returns has consumed at least one read. -/
theorem tcpReceive_rest_length (cfg : Config) :
    ∀ (reads : List ReadResult) (cb : stcp_send_ctrl_blk) (o : RecvOut),
      tcpReceive cfg cb reads = some o → o.rest.length < reads.length := by
  intro reads
  induction reads with
  | nil => intro cb o h; simp [tcpReceive] at h
  | cons r rest ih =>
    intro cb o h
    by_cases hT : r.status = cfg.STCP_READ_TIMED_OUT
    · rw [tcpReceive_timedOut cfg cb r rest hT] at h
      cases h; simp
    · by_cases hF : r.status = cfg.STCP_READ_PERMANENT_FAILURE
      · rw [tcpReceive_failed cfg cb r rest hT hF] at h
        cases h; simp
      · by_cases hd : r.pkt.hdr.seqNo ≤ cb.ackNo
        · rw [tcpReceive_duplicate cfg cb r rest hT hF hd] at h
          cases hin : tcpReceive cfg cb rest with
          | none => simp [hin] at h
          | some inner =>
            simp only [hin, Option.map_some', Option.some.injEq] at h
            subst h
            have := ih cb inner hin
            simp only [List.length_cons]
            omega
        · rw [tcpReceive_fresh cfg cb r rest hT hF (Nat.lt_of_not_le hd)] at h
          cases h; simp

/-- No path through tcpReceive assigns cb.state. -/
theorem tcpReceive_state (cfg : Config) :
    ∀ (reads : List ReadResult) (cb : stcp_send_ctrl_blk) (o : RecvOut),
      tcpReceive cfg cb reads = some o → o.cb.state = cb.state := by
  intro reads
  induction reads with
  | nil => intro cb o h; simp [tcpReceive] at h
  | cons r rest ih =>
    intro cb o h
    by_cases hT : r.status = cfg.STCP_READ_TIMED_OUT
    · rw [tcpReceive_timedOut cfg cb r rest hT] at h
      cases h; rfl
    · by_cases hF : r.status = cfg.STCP_READ_PERMANENT_FAILURE
      · rw [tcpReceive_failed cfg cb r rest hT hF] at h
        cases h; rfl
      · by_cases hd : r.pkt.hdr.seqNo ≤ cb.ackNo
        · rw [tcpReceive_duplicate cfg cb r rest hT hF hd] at h
          cases hin : tcpReceive cfg cb rest with
          | none => simp [hin] at h
          | some inner =>
            simp only [hin, Option.map_some', Option.some.injEq] at h
            subst h
            exact ih cb inner hin
        · rw [tcpReceive_fresh cfg cb r rest hT hF (Nat.lt_of_not_le hd)] at h
          cases h; rfl

/-- The call returns the timeout code only when its own read timed out, and then the control
block differs from the one passed in by the timeout alone. -/
theorem tcpReceive_ret_timedOut (cfg : Config) (cb : stcp_send_ctrl_blk)
    (reads : List ReadResult) (o : RecvOut) (h : tcpReceive cfg cb reads = some o)
    (hret : o.ret = cfg.STCP_READ_TIMED_OUT) :
    o.cb = { cb with timeout := cfg.stcpNextTimeout cb.timeout } := by
  cases reads with
  | nil => simp [tcpReceive] at h
  | cons r rest =>
    by_cases hT : r.status = cfg.STCP_READ_TIMED_OUT
    · rw [tcpReceive_timedOut cfg cb r rest hT] at h
      cases h; rfl
    · by_cases hF : r.status = cfg.STCP_READ_PERMANENT_FAILURE
      · rw [tcpReceive_failed cfg cb r rest hT hF] at h
        cases h
        exact absurd (hF.trans hret) hT
      · by_cases hd : r.pkt.hdr.seqNo ≤ cb.ackNo
        · rw [tcpReceive_duplicate cfg cb r rest hT hF hd] at h
          cases hin : tcpReceive cfg cb rest with
          | none => simp [hin] at h
          | some inner =>
            simp only [hin, Option.map_some', Option.some.injEq] at h
            subst h
            exact absurd hret hT
        · rw [tcpReceive_fresh cfg cb r rest hT hF (Nat.lt_of_not_le hd)] at h
          cases h
          exact absurd hret hT

/-! ## The send loop -/

/-- A pass through the loop body whose call of tcpReceive returns the timeout code: the loop
continues with the same value of the loop variable. -/
theorem sendLoop_timedOut (cfg : Config) (data : List Nat) (length : Int) (fuel : Nat) (i : Int)
    (cb : stcp_send_ctrl_blk) (reads : List ReadResult) (o : RecvOut) (hi : i < length)
    (hrecv : tcpReceive cfg
      (tcpSend cfg cb cfg.ACK (data.drop i.toNat) (min cfg.STCP_MSS (length - i))).1 reads
        = some o)
    (hret : o.ret = cfg.STCP_READ_TIMED_OUT) :
    sendLoop cfg data length (fuel + 1) i cb reads =
      Run.after
        [.sent (tcpSend cfg cb cfg.ACK (data.drop i.toNat) (min cfg.STCP_MSS (length - i))).2,
         .received cfg.STCP_READ_TIMED_OUT]
        (sendLoop cfg data length fuel i o.cb o.rest) := by
  have hidx : i - cfg.STCP_MSS + cfg.STCP_MSS = i := by omega
  simp only [sendLoop, hi, if_true, hrecv, hret, hidx]

/-- A pass through the loop body whose call of tcpReceive returns the failure code (distinct
from the timeout code): stcp_send returns STCP_ERROR at once. -/
theorem sendLoop_failed (cfg : Config) (data : List Nat) (length : Int) (fuel : Nat) (i : Int)
    (cb : stcp_send_ctrl_blk) (reads : List ReadResult) (o : RecvOut) (hi : i < length)
    (hrecv : tcpReceive cfg
      (tcpSend cfg cb cfg.ACK (data.drop i.toNat) (min cfg.STCP_MSS (length - i))).1 reads
        = some o)
    (hT : o.ret ≠ cfg.STCP_READ_TIMED_OUT) (hF : o.ret = cfg.STCP_READ_PERMANENT_FAILURE) :
    sendLoop cfg data length (fuel + 1) i cb reads =
      .done { ret := STCP_ERROR, cb := o.cb, rest := o.rest
              trace :=
                [.sent (tcpSend cfg cb cfg.ACK (data.drop i.toNat)
                    (min cfg.STCP_MSS (length - i))).2,
                 .received o.ret] } := by
  simp only [sendLoop, hi, if_true, hrecv]
  rw [if_neg hT, if_pos hF]

/-- A pass through the loop body whose call of tcpReceive returns a received segment: the
loop variable advances by STCP_MSS. -/
theorem sendLoop_acked (cfg : Config) (data : List Nat) (length : Int) (fuel : Nat) (i : Int)
    (cb : stcp_send_ctrl_blk) (reads : List ReadResult) (o : RecvOut) (hi : i < length)
    (hrecv : tcpReceive cfg
      (tcpSend cfg cb cfg.ACK (data.drop i.toNat) (min cfg.STCP_MSS (length - i))).1 reads
        = some o)
    (hT : o.ret ≠ cfg.STCP_READ_TIMED_OUT) (hF : o.ret ≠ cfg.STCP_READ_PERMANENT_FAILURE) :
    sendLoop cfg data length (fuel + 1) i cb reads =
      Run.after
        [.sent (tcpSend cfg cb cfg.ACK (data.drop i.toNat) (min cfg.STCP_MSS (length - i))).2,
         .received o.ret]
        (sendLoop cfg data length fuel (i + cfg.STCP_MSS) o.cb o.rest) := by
  simp only [sendLoop, hi, if_true, hrecv]
  rw [if_neg hT, if_neg hF]

/-- The loop condition fails: stcp_send sets the state and returns STCP_SUCCESS. -/
theorem sendLoop_exit (cfg : Config) (data : List Nat) (length : Int) (fuel : Nat) (i : Int)
    (cb : stcp_send_ctrl_blk) (reads : List ReadResult) (hi : ¬ i < length) :
    sendLoop cfg data length (fuel + 1) i cb reads =
      .done { ret := STCP_SUCCESS, cb := { cb with state := cfg.STCP_SENDER_CLOSING }
              rest := reads, trace := [] } := by
  simp only [sendLoop, hi, if_false]

/-- The script ends during the call of tcpReceive. -/
theorem sendLoop_blocked (cfg : Config) (data : List Nat) (length : Int) (fuel : Nat) (i : Int)
    (cb : stcp_send_ctrl_blk) (reads : List ReadResult) (hi : i < length)
    (hrecv : tcpReceive cfg
      (tcpSend cfg cb cfg.ACK (data.drop i.toNat) (min cfg.STCP_MSS (length - i))).1 reads
        = none) :
    sendLoop cfg data length (fuel + 1) i cb reads = .blocked := by
  simp only [sendLoop, hi, if_true, hrecv]

/-- Putting events in front of a run gives a returned run exactly when the run returned. -/
theorem Run.after_eq_done (es : List Event) (run : Run CallOut) (out : CallOut)
    (h : Run.after es run = .done out) :
    ∃ o, run = .done o ∧ out = { o with trace := es ++ o.trace } := by
  cases run with
  | done o => exact ⟨o, rfl, by simpa [Run.after] using h.symm⟩
  | blocked => simp [Run.after] at h
  | fuelOut => simp [Run.after] at h

/-- Adequacy of the fuel: with more fuel than reads the loop never stops for lack of fuel. -/
theorem sendLoop_ne_fuelOut (cfg : Config) (data : List Nat) (length : Int) :
    ∀ (fuel : Nat) (i : Int) (cb : stcp_send_ctrl_blk) (reads : List ReadResult),
      reads.length < fuel → sendLoop cfg data length fuel i cb reads ≠ .fuelOut := by
  intro fuel
  induction fuel with
  | zero => intro i cb reads h; omega
  | succ fuel ih =>
    intro i cb reads hlen
    by_cases hi : i < length
    · cases hrecv : tcpReceive cfg
        (tcpSend cfg cb cfg.ACK (data.drop i.toNat) (min cfg.STCP_MSS (length - i))).1 reads with
      | none => rw [sendLoop_blocked cfg data length fuel i cb reads hi hrecv]; simp
      | some o =>
        have hrest := tcpReceive_rest_length cfg reads _ o hrecv
        have hfuel : o.rest.length < fuel := by omega
        by_cases hT : o.ret = cfg.STCP_READ_TIMED_OUT
        · rw [sendLoop_timedOut cfg data length fuel i cb reads o hi hrecv hT]
          have := ih i o.cb o.rest hfuel
          cases hrun : sendLoop cfg data length fuel i o.cb o.rest with
          | done a => simp [Run.after]
          | blocked => simp [Run.after]
          | fuelOut => exact absurd hrun this
        · by_cases hF : o.ret = cfg.STCP_READ_PERMANENT_FAILURE
          · rw [sendLoop_failed cfg data length fuel i cb reads o hi hrecv hT hF]; simp
          · rw [sendLoop_acked cfg data length fuel i cb reads o hi hrecv hT hF]
            have := ih (i + cfg.STCP_MSS) o.cb o.rest hfuel
            cases hrun : sendLoop cfg data length fuel (i + cfg.STCP_MSS) o.cb o.rest with
            | done a => simp [Run.after]
            | blocked => simp [Run.after]
            | fuelOut => exact absurd hrun this
    · rw [sendLoop_exit cfg data length fuel i cb reads hi]; simp

/-- A round whose call did not return the value v puts no occurrence of that return value in
front of the rest of the trace. -/
theorem received_mem_round (w : Written) (r v : Int) (tr : List Event) (hr : r ≠ v) :
    Event.received v ∈ Event.sent w :: Event.received r :: tr ↔ Event.received v ∈ tr := by
  simp [Ne.symm hr]

/-- If nothing follows an occurrence of the return value v in the rest of the trace, nothing
follows one after a round that did not return v has been put in front. -/
theorem nothing_after_round (w : Written) (r v : Int) (tr : List Event) (hr : r ≠ v)
    (ih : ∀ pre post, tr = pre ++ Event.received v :: post → post = []) :
    ∀ pre post, Event.sent w :: Event.received r :: tr = pre ++ Event.received v :: post →
      post = [] := by
  intro pre post h
  match pre, h with
  | [], h => simp at h
  | [_], h =>
    simp only [List.cons_append, List.nil_append, List.cons.injEq, Event.received.injEq] at h
    exact absurd h.2.1 hr
  | _ :: _ :: pre, h =>
    simp only [List.cons_append, List.cons.injEq] at h
    exact ih pre post h.2.2

/-- What a returned run of the send loop looks like, provided the timeout code and the failure
code are distinct. -/
theorem sendLoop_done_spec (cfg : Config) (data : List Nat) (length : Int)
    (hne : cfg.STCP_READ_TIMED_OUT ≠ cfg.STCP_READ_PERMANENT_FAILURE) :
    ∀ (fuel : Nat) (i : Int) (cb : stcp_send_ctrl_blk) (reads : List ReadResult) (out : CallOut),
      sendLoop cfg data length fuel i cb reads = .done out →
        (out.ret = STCP_ERROR ↔
          Event.received cfg.STCP_READ_PERMANENT_FAILURE ∈ out.trace) ∧
        (∀ pre post,
          out.trace = pre ++ Event.received cfg.STCP_READ_PERMANENT_FAILURE :: post →
            post = []) ∧
        (out.ret = STCP_ERROR → out.cb.state = cb.state) ∧
        (out.ret ≠ STCP_ERROR →
          out.ret = STCP_SUCCESS ∧ out.cb.state = cfg.STCP_SENDER_CLOSING) := by
  intro fuel
  induction fuel with
  | zero => intro i cb reads out h; simp [sendLoop] at h
  | succ fuel ih =>
    intro i cb reads out h
    by_cases hi : i < length
    · cases hrecv : tcpReceive cfg
        (tcpSend cfg cb cfg.ACK (data.drop i.toNat) (min cfg.STCP_MSS (length - i))).1 reads with
      | none => rw [sendLoop_blocked cfg data length fuel i cb reads hi hrecv] at h; simp at h
      | some o =>
        have hstate : o.cb.state = cb.state :=
          tcpReceive_state cfg reads
            (tcpSend cfg cb cfg.ACK (data.drop i.toNat) (min cfg.STCP_MSS (length - i))).1 o hrecv
        by_cases hT : o.ret = cfg.STCP_READ_TIMED_OUT
        · rw [sendLoop_timedOut cfg data length fuel i cb reads o hi hrecv hT] at h
          obtain ⟨o2, hrun, hout⟩ := Run.after_eq_done _ _ _ h
          obtain ⟨h1, h2, h3, h4⟩ := ih i o.cb o.rest o2 hrun
          subst hout
          refine ⟨?_, ?_, ?_, h4⟩
          · exact h1.trans (received_mem_round _ _ _ _ hne).symm
          · exact nothing_after_round _ _ _ _ hne h2
          · intro he; exact (h3 he).trans hstate
        · by_cases hF : o.ret = cfg.STCP_READ_PERMANENT_FAILURE
          · rw [sendLoop_failed cfg data length fuel i cb reads o hi hrecv hT hF] at h
            cases h
            refine ⟨?_, ?_, ?_, ?_⟩
            · simp [hF]
            · intro pre post hsplit
              match pre, hsplit with
              | [], hsplit => simp at hsplit
              | [_], hsplit =>
                simp only [List.cons_append, List.nil_append, List.cons.injEq] at hsplit
                exact hsplit.2.2.symm
              | _ :: _ :: pre, hsplit => simp at hsplit
            · intro _; exact hstate
            · intro hc; exact absurd rfl hc
          · rw [sendLoop_acked cfg data length fuel i cb reads o hi hrecv hT hF] at h
            obtain ⟨o2, hrun, hout⟩ := Run.after_eq_done _ _ _ h
            obtain ⟨h1, h2, h3, h4⟩ := ih (i + cfg.STCP_MSS) o.cb o.rest o2 hrun
            subst hout
            refine ⟨?_, ?_, ?_, h4⟩
            · exact h1.trans (received_mem_round _ _ _ _ hF).symm
            · exact nothing_after_round _ _ _ _ hF h2
            · intro he; exact (h3 he).trans hstate
    · rw [sendLoop_exit cfg data length fuel i cb reads hi] at h
      cases h
      refine ⟨?_, ?_, ?_, ?_⟩
      · simp [STCP_SUCCESS, STCP_ERROR]
      · intro pre post hsplit; simp at hsplit
      · intro he; simp [STCP_SUCCESS, STCP_ERROR] at he
      · intro _; exact ⟨rfl, rfl⟩

/-! ## Rounds in which every reception succeeds -/

/-- The in-flight counter passes through tcpReceive: a larger counter on entry gives the same
return value and rest, and a control block with the counter larger by the same amount. -/
theorem tcpReceive_moreInFlight (cfg : Config) (d : Int) :
    ∀ (reads : List ReadResult) (cb : stcp_send_ctrl_blk),
      tcpReceive cfg (moreInFlight d cb) reads =
        (tcpReceive cfg cb reads).map (fun o => { o with cb := moreInFlight d o.cb }) := by
  intro reads
  induction reads with
  | nil => intro cb; simp [tcpReceive]
  | cons r rest ih =>
    intro cb
    have happly : ∀ c : stcp_send_ctrl_blk,
        applySegment cfg (moreInFlight d c) r = moreInFlight d (applySegment cfg c r) := by
      intro c
      simp only [applySegment, moreInFlight, stcp_send_ctrl_blk.mk.injEq, true_and, and_true]
      omega
    by_cases hT : r.status = cfg.STCP_READ_TIMED_OUT
    · rw [tcpReceive_timedOut cfg _ r rest hT, tcpReceive_timedOut cfg cb r rest hT]
      rfl
    · by_cases hF : r.status = cfg.STCP_READ_PERMANENT_FAILURE
      · rw [tcpReceive_failed cfg _ r rest hT hF, tcpReceive_failed cfg cb r rest hT hF]
        rfl
      · by_cases hd : r.pkt.hdr.seqNo ≤ cb.ackNo
        · rw [tcpReceive_duplicate cfg (moreInFlight d cb) r rest hT hF hd,
            tcpReceive_duplicate cfg cb r rest hT hF hd, ih cb]
          cases tcpReceive cfg cb rest with
          | none => rfl
          | some inner => simp only [Option.map_some', happly]
        · rw [tcpReceive_fresh cfg (moreInFlight d cb) r rest hT hF (Nat.lt_of_not_le hd),
            tcpReceive_fresh cfg cb r rest hT hF (Nat.lt_of_not_le hd)]
          simp only [Option.map_some', happly]

/-- Whether the next receptions succeed does not depend on the in-flight counter. -/
theorem ackedRounds_moreInFlight (cfg : Config) (d : Int) :
    ∀ (n : Nat) (cb : stcp_send_ctrl_blk) (reads : List ReadResult),
      ackedRounds cfg n (moreInFlight d cb) reads = ackedRounds cfg n cb reads := by
  intro n
  induction n with
  | zero => intro cb reads; rfl
  | succ n ih =>
    intro cb reads
    simp only [ackedRounds, tcpReceive_moreInFlight]
    cases tcpReceive cfg cb reads with
    | none => rfl
    | some o => simp only [Option.map_some', ih]

/-- Unfolding of a successful first round. -/
theorem ackedRounds_succ (cfg : Config) (n : Nat) (cb : stcp_send_ctrl_blk)
    (reads : List ReadResult) (h : ackedRounds cfg (n + 1) cb reads = true) :
    ∃ o, tcpReceive cfg cb reads = some o ∧ o.ret ≠ cfg.STCP_READ_TIMED_OUT ∧
      o.ret ≠ cfg.STCP_READ_PERMANENT_FAILURE ∧ ackedRounds cfg n o.cb o.rest = true := by
  simp only [ackedRounds] at h
  cases hrecv : tcpReceive cfg cb reads with
  | none => simp [hrecv] at h
  | some o =>
    simp only [hrecv, Bool.and_eq_true, decide_eq_true_eq] at h
    exact ⟨o, rfl, h.1.1, h.1.2, h.2⟩

/-- Each successful round consumes at least one read. -/
theorem ackedRounds_length (cfg : Config) :
    ∀ (n : Nat) (cb : stcp_send_ctrl_blk) (reads : List ReadResult),
      ackedRounds cfg n cb reads = true → n ≤ reads.length := by
  intro n
  induction n with
  | zero => intro cb reads _; exact Nat.zero_le _
  | succ n ih =>
    intro cb reads h
    obtain ⟨o, hrecv, _, _, hrest⟩ := ackedRounds_succ cfg n cb reads h
    have h1 := tcpReceive_rest_length cfg reads cb o hrecv
    have h2 := ih o.cb o.rest hrest
    omega

/-- When each of the next n receptions succeeds and n chunks remain from loop variable i on,
the loop runs n rounds and leaves: the writes carry flag ACK and the chunks at
i, i + STCP_MSS, ..., and the trace alternates between a write and a reception. -/
theorem sendLoop_all_acked (cfg : Config) (data : List Nat) (length : Int) :
    ∀ (n fuel : Nat) (i : Int) (cb : stcp_send_ctrl_blk) (reads : List ReadResult),
      n < fuel →
      length ≤ i + n * cfg.STCP_MSS →
      (∀ m : Nat, m < n → i + m * cfg.STCP_MSS < length) →
      ackedRounds cfg n cb reads = true →
      ∃ ws rets out,
        sendLoop cfg data length fuel i cb reads = .done out ∧
        out.ret = STCP_SUCCESS ∧ out.cb.state = cfg.STCP_SENDER_CLOSING ∧
        out.trace = rounds ws rets ∧ ws.length = n ∧ rets.length = n ∧
        (∀ w ∈ ws, w.pkt.hdr.flags = cfg.ACK) ∧
        ws.map (fun w => w.pkt.data) =
          (List.range n).map (fun m : Nat => chunkAt cfg data length (i + m * cfg.STCP_MSS)) ∧
        (∀ ret ∈ rets,
          ret ≠ cfg.STCP_READ_TIMED_OUT ∧ ret ≠ cfg.STCP_READ_PERMANENT_FAILURE) := by
  intro n
  induction n with
  | zero =>
    intro fuel i cb reads hfuel hup _ _
    obtain ⟨fuel, rfl⟩ : ∃ f, fuel = f + 1 := ⟨fuel - 1, by omega⟩
    have hi : ¬ i < length := by
      simp only [Nat.cast_zero, zero_mul, add_zero] at hup
      omega
    exact ⟨[], [], _, sendLoop_exit cfg data length fuel i cb reads hi, rfl, rfl, rfl, rfl, rfl,
      by simp, by simp, by simp⟩
  | succ n ih =>
    intro fuel i cb reads hfuel hup hlow hack
    obtain ⟨fuel, rfl⟩ : ∃ f, fuel = f + 1 := ⟨fuel - 1, by omega⟩
    have hi : i < length := by
      have := hlow 0 (Nat.succ_pos n)
      simpa using this
    obtain ⟨o, hrecv, hT, hF, hrest⟩ := ackedRounds_succ cfg n cb reads hack
    have hrecv2 : tcpReceive cfg
        (tcpSend cfg cb cfg.ACK (data.drop i.toNat) (min cfg.STCP_MSS (length - i))).1 reads =
        some { o with
          cb := moreInFlight (cfg.sizeofTcpheader + min cfg.STCP_MSS (length - i)) o.cb } := by
      have := tcpReceive_moreInFlight cfg
        (cfg.sizeofTcpheader + min cfg.STCP_MSS (length - i)) reads cb
      rw [hrecv] at this
      exact this
    have hrest2 : ackedRounds cfg n
        (moreInFlight (cfg.sizeofTcpheader + min cfg.STCP_MSS (length - i)) o.cb) o.rest
          = true := by
      rw [ackedRounds_moreInFlight]; exact hrest
    have hup2 : length ≤ i + cfg.STCP_MSS + n * cfg.STCP_MSS := by
      have : i + ((n + 1 : Nat) : Int) * cfg.STCP_MSS = i + cfg.STCP_MSS + n * cfg.STCP_MSS := by
        push_cast; ring
      rw [← this]; exact hup
    have hshift : ∀ m : Nat,
        i + cfg.STCP_MSS + m * cfg.STCP_MSS = i + ((m + 1 : Nat) : Int) * cfg.STCP_MSS := by
      intro m; push_cast; ring
    have hlow2 : ∀ m : Nat, m < n → i + cfg.STCP_MSS + m * cfg.STCP_MSS < length := by
      intro m hm
      rw [hshift m]
      exact hlow (m + 1) (Nat.succ_lt_succ hm)
    obtain ⟨ws, rets, out, hrun, hret, hstate, htrace, hws, hrets, hflags, hdata, hok⟩ :=
      ih fuel (i + cfg.STCP_MSS) _ o.rest (by omega) hup2 hlow2 hrest2
    refine ⟨(tcpSend cfg cb cfg.ACK (data.drop i.toNat) (min cfg.STCP_MSS (length - i))).2 :: ws,
      o.ret :: rets,
      { out with
        trace :=
          [.sent (tcpSend cfg cb cfg.ACK (data.drop i.toNat) (min cfg.STCP_MSS (length - i))).2,
           .received o.ret] ++ out.trace },
      ?_, hret, hstate, ?_, ?_, ?_, ?_, ?_, ?_⟩
    · rw [sendLoop_acked cfg data length fuel i cb reads _ hi hrecv2 hT hF, hrun]
      rfl
    · show _ :: _ :: out.trace = _
      rw [htrace]; rfl
    · simp [hws]
    · simp [hrets]
    · intro w hw
      rcases List.mem_cons.mp hw with rfl | hw
      · rfl
      · exact hflags w hw
    · rw [List.range_succ_eq_map, List.map_cons, List.map_cons, List.map_map, hdata]
      congr 1
      · show chunkAt cfg data length i = _
        simp
      · apply List.map_congr_left
        intro m _
        simp only [Function.comp, hshift m]
    · intro ret hret
      rcases List.mem_cons.mp hret with rfl | hret
      · exact ⟨hT, hF⟩
      · exact hok ret hret

/-- With the whole buffer passed (length is the number of bytes) and STCP_MSS = mss, the chunk
copied in round m is the slice of at most mss bytes that starts at offset m * mss. -/
theorem chunkAt_slice (cfg : Config) (data : List Nat) (mss m : Nat)
    (hmss : cfg.STCP_MSS = mss) :
    chunkAt cfg data data.length (0 + m * cfg.STCP_MSS) = (data.drop (m * mss)).take mss := by
  have h1 : ((0 : Int) + m * cfg.STCP_MSS).toNat = m * mss := by
    rw [hmss, zero_add, ← Nat.cast_mul, Int.toNat_natCast]
  unfold chunkAt
  rw [h1, List.take_eq_take, List.length_drop, hmss, zero_add, ← Nat.cast_mul]
  generalize m * mss = p
  omega

/-- Slices of mss bytes at the offsets 0, mss, ..., k * mss put one after the other give back
a buffer of at most (k + 1) * mss bytes. -/
theorem slices_flatten (mss : Nat) :
    ∀ (k : Nat) (data : List Nat), data.length ≤ (k + 1) * mss →
      ((List.range (k + 1)).map (fun j => (data.drop (j * mss)).take mss)).flatten = data := by
  intro k
  induction k with
  | zero =>
    intro data h
    have h2 : data.length ≤ mss := by simpa using h
    rw [show List.range (0 + 1) = [0] from rfl]
    simp [List.take_of_length_le h2]
  | succ k ih =>
    intro data h
    rw [List.range_succ_eq_map, List.map_cons, List.map_map, List.flatten_cons]
    have htail : List.map ((fun j => (data.drop (j * mss)).take mss) ∘ Nat.succ)
        (List.range (k + 1)) =
        List.map (fun j => ((data.drop mss).drop (j * mss)).take mss) (List.range (k + 1)) := by
      apply List.map_congr_left
      intro j _
      simp only [Function.comp, List.drop_drop, Nat.succ_eq_add_one]
      congr 2
      ring
    have hlen : (data.drop mss).length ≤ (k + 1) * mss := by
      rw [List.length_drop]
      have : (k + 1 + 1) * mss = (k + 1) * mss + mss := by ring
      omega
    rw [htail, ih (data.drop mss) hlen]
    simp

/-- The lengths of those slices, for a buffer of k * mss + r bytes with 0 < r < mss: k times
mss and then r. -/
theorem slices_lengths (mss k r : Nat) (data : List Nat) (hlen : data.length = k * mss + r)
    (hr : r < mss) :
    (List.range (k + 1)).map (fun j => ((data.drop (j * mss)).take mss).length) =
      List.replicate k mss ++ [r] := by
  rw [List.range_succ, List.map_append]
  congr 1
  · have : ∀ j ∈ List.range k,
        ((data.drop (j * mss)).take mss).length = (fun _ : Nat => mss) j := by
      intro j hj
      have hjk : j + 1 ≤ k := List.mem_range.mp hj
      have hmul : (j + 1) * mss ≤ k * mss := Nat.mul_le_mul_right mss hjk
      have hexp : (j + 1) * mss = j * mss + mss := by ring
      simp only [List.length_take, List.length_drop, hlen]
      omega
    rw [List.map_congr_left this, List.map_const', List.length_range]
  · simp only [List.map_cons, List.map_nil, List.length_take, List.length_drop, hlen]
    congr 1
    omega

/-! ## Rounds with timeouts and failures -/

/-- Whether the next calls have the listed outcomes does not depend on the in-flight
counter. -/
theorem outcomeRounds_moreInFlight (cfg : Config) (d : Int) :
    ∀ (ocs : List Outcome) (cb : stcp_send_ctrl_blk) (reads : List ReadResult),
      outcomeRounds cfg ocs (moreInFlight d cb) reads = outcomeRounds cfg ocs cb reads := by
  intro ocs
  induction ocs with
  | nil => intro cb reads; rfl
  | cons oc ocs ih =>
    intro cb reads
    simp only [outcomeRounds, tcpReceive_moreInFlight]
    cases tcpReceive cfg cb reads with
    | none => rfl
    | some o => simp only [Option.map_some', ih]

/-- Unfolding of a first round with a listed outcome. -/
theorem outcomeRounds_cons (cfg : Config) (oc : Outcome) (ocs : List Outcome)
    (cb : stcp_send_ctrl_blk) (reads : List ReadResult)
    (h : outcomeRounds cfg (oc :: ocs) cb reads = true) :
    ∃ o, tcpReceive cfg cb reads = some o ∧ outcomeHolds cfg oc o.ret = true ∧
      outcomeRounds cfg ocs o.cb o.rest = true := by
  simp only [outcomeRounds] at h
  cases hrecv : tcpReceive cfg cb reads with
  | none => simp [hrecv] at h
  | some o =>
    simp only [hrecv, Bool.and_eq_true] at h
    exact ⟨o, rfl, h.1, h.2⟩

/-- Each round with a listed outcome consumes at least one read. -/
theorem outcomeRounds_length (cfg : Config) :
    ∀ (ocs : List Outcome) (cb : stcp_send_ctrl_blk) (reads : List ReadResult),
      outcomeRounds cfg ocs cb reads = true → ocs.length ≤ reads.length := by
  intro ocs
  induction ocs with
  | nil => intro cb reads _; exact Nat.zero_le _
  | cons oc ocs ih =>
    intro cb reads h
    obtain ⟨o, hrecv, _, hrest⟩ := outcomeRounds_cons cfg oc ocs cb reads h
    have h1 := tcpReceive_rest_length cfg reads cb o hrecv
    have h2 := ih o.cb o.rest hrest
    simp only [List.length_cons]
    omega

/-- The loop of stcp_send on a script whose calls of tcpReceive have the listed outcomes, the
list covering the whole run: the loop returns after one write per listed outcome, with
STCP_ERROR when the list contains a failure and STCP_SUCCESS otherwise; the first write is the
chunk at the entry value of the loop variable; after a timeout the very same segment is
written again. -/
theorem sendLoop_outcomes (cfg : Config) (data : List Nat) (length : Int) :
    ∀ (ocs : List Outcome) (fuel : Nat) (i : Int) (cb : stcp_send_ctrl_blk)
      (reads : List ReadResult),
      ocs.length < fuel →
      coversBuffer cfg.STCP_MSS length i ocs = true →
      outcomeRounds cfg ocs cb reads = true →
      ∃ ws rets out,
        sendLoop cfg data length fuel i cb reads = .done out ∧
        out.ret = (if Outcome.failed ∈ ocs then STCP_ERROR else STCP_SUCCESS) ∧
        out.trace = rounds ws rets ∧ ws.length = ocs.length ∧ rets.length = ocs.length ∧
        (∀ w ∈ ws, w.pkt.hdr.flags = cfg.ACK) ∧
        ws.head? = ocs.head?.map (fun _ => chunkWrite cfg data length i cb) ∧
        ws.map (fun w => w.pkt.data) =
          (loopOffsets cfg.STCP_MSS i ocs).map (chunkAt cfg data length) ∧
        (∀ j : Nat, ocs[j]? = some Outcome.timedOut →
          rets[j]? = some cfg.STCP_READ_TIMED_OUT ∧
            ∃ w, ws[j]? = some w ∧ ws[j + 1]? = some w) ∧
        (∀ j : Nat, ocs[j]? = some Outcome.received →
          ∃ r, rets[j]? = some r ∧ r ≠ cfg.STCP_READ_TIMED_OUT ∧
            r ≠ cfg.STCP_READ_PERMANENT_FAILURE) ∧
        (∀ j : Nat, ocs[j]? = some Outcome.failed →
          rets[j]? = some cfg.STCP_READ_PERMANENT_FAILURE ∧ j + 1 = ocs.length) := by
  intro ocs
  induction ocs with
  | nil =>
    intro fuel i cb reads hfuel hcover _
    obtain ⟨fuel, rfl⟩ : ∃ f, fuel = f + 1 := ⟨fuel - 1, by simp at hfuel; omega⟩
    have hi : ¬ i < length := by
      simp only [coversBuffer, decide_eq_true_eq] at hcover
      omega
    exact ⟨[], [], _, sendLoop_exit cfg data length fuel i cb reads hi, by simp, rfl, rfl, rfl,
      by simp, rfl, rfl, by simp, by simp, by simp⟩
  | cons oc ocs ih =>
    intro fuel i cb reads hfuel hcover hout
    obtain ⟨fuel, rfl⟩ : ∃ f, fuel = f + 1 := ⟨fuel - 1, by omega⟩
    have hlen : ocs.length < fuel := by
      simp only [List.length_cons] at hfuel; omega
    simp only [coversBuffer, Bool.and_eq_true, decide_eq_true_eq] at hcover
    obtain ⟨hi, hcover2⟩ := hcover
    obtain ⟨o, hrecv, hholds, hrest⟩ := outcomeRounds_cons cfg oc ocs cb reads hout
    have hrecv2 : tcpReceive cfg
        (tcpSend cfg cb cfg.ACK (data.drop i.toNat) (min cfg.STCP_MSS (length - i))).1 reads =
        some { o with
          cb := moreInFlight (cfg.sizeofTcpheader + min cfg.STCP_MSS (length - i)) o.cb } := by
      have := tcpReceive_moreInFlight cfg
        (cfg.sizeofTcpheader + min cfg.STCP_MSS (length - i)) reads cb
      rw [hrecv] at this
      exact this
    have hrest2 : outcomeRounds cfg ocs
        (moreInFlight (cfg.sizeofTcpheader + min cfg.STCP_MSS (length - i)) o.cb) o.rest
          = true := by
      rw [outcomeRounds_moreInFlight]; exact hrest
    cases oc with
    | timedOut =>
      have hret : o.ret = cfg.STCP_READ_TIMED_OUT := by
        simpa [outcomeHolds] using hholds
      have hcover3 : coversBuffer cfg.STCP_MSS length i ocs = true := by
        simpa [nextOffset] using hcover2
      obtain ⟨ws, rets, out, hrun, hres, htrace, hws, hrets, hflags, hhead, hdata,
        htimeouts, hacks, hfails⟩ := ih fuel i _ o.rest hlen hcover3 hrest2
      have hcb := tcpReceive_ret_timedOut cfg cb reads o hrecv hret
      have hsame : chunkWrite cfg data length i
          (moreInFlight (cfg.sizeofTcpheader + min cfg.STCP_MSS (length - i)) o.cb) =
          chunkWrite cfg data length i cb := by
        rw [hcb]; rfl
      have hne : ocs ≠ [] := by
        intro hnil
        rw [hnil] at hcover3
        simp only [coversBuffer, decide_eq_true_eq] at hcover3
        omega
      have hnext : ws[0]? = some (chunkWrite cfg data length i cb) := by
        rw [← List.head?_eq_getElem?, hhead, hsame]
        cases ocs with
        | nil => exact absurd rfl hne
        | cons oc2 ocs2 => rfl
      refine ⟨chunkWrite cfg data length i cb :: ws, cfg.STCP_READ_TIMED_OUT :: rets,
        { out with
          trace :=
            [.sent (chunkWrite cfg data length i cb),
             .received cfg.STCP_READ_TIMED_OUT] ++ out.trace },
        ?_, ?_, ?_, ?_, ?_, ?_, rfl, ?_, ?_, ?_, ?_⟩
      · rw [sendLoop_timedOut cfg data length fuel i cb reads _ hi hrecv2 hret, hrun]
        rfl
      · show out.ret = _
        rw [hres]
        simp
      · show _ :: _ :: out.trace = _
        rw [htrace]; rfl
      · simp [hws]
      · simp [hrets]
      · intro w hw
        rcases List.mem_cons.mp hw with rfl | hw
        · rfl
        · exact hflags w hw
      · show _ :: List.map _ ws = _
        rw [hdata]
        rfl
      · intro j hj
        cases j with
        | zero =>
          exact ⟨List.getElem?_cons_zero, chunkWrite cfg data length i cb,
            List.getElem?_cons_zero, by rw [List.getElem?_cons_succ]; exact hnext⟩
        | succ j =>
          rw [List.getElem?_cons_succ] at hj
          obtain ⟨h1, w, h2, h3⟩ := htimeouts j hj
          exact ⟨by rw [List.getElem?_cons_succ]; exact h1, w,
            by rw [List.getElem?_cons_succ]; exact h2,
            by rw [List.getElem?_cons_succ]; exact h3⟩
      · intro j hj
        cases j with
        | zero => simp at hj
        | succ j =>
          rw [List.getElem?_cons_succ] at hj
          obtain ⟨r, h1, h2⟩ := hacks j hj
          exact ⟨r, by rw [List.getElem?_cons_succ]; exact h1, h2⟩
      · intro j hj
        cases j with
        | zero => simp at hj
        | succ j =>
          rw [List.getElem?_cons_succ] at hj
          obtain ⟨h1, h2⟩ := hfails j hj
          exact ⟨by rw [List.getElem?_cons_succ]; exact h1, by simp only [List.length_cons]; omega⟩
    | received =>
      have hTF : o.ret ≠ cfg.STCP_READ_TIMED_OUT ∧
          o.ret ≠ cfg.STCP_READ_PERMANENT_FAILURE := by
        simpa [outcomeHolds] using hholds
      obtain ⟨hT, hF⟩ := hTF
      have hcover3 : coversBuffer cfg.STCP_MSS length (i + cfg.STCP_MSS) ocs = true := by
        simpa [nextOffset] using hcover2
      obtain ⟨ws, rets, out, hrun, hres, htrace, hws, hrets, hflags, _, hdata,
        htimeouts, hacks, hfails⟩ := ih fuel (i + cfg.STCP_MSS) _ o.rest hlen hcover3 hrest2
      refine ⟨chunkWrite cfg data length i cb :: ws, o.ret :: rets,
        { out with
          trace :=
            [.sent (chunkWrite cfg data length i cb), .received o.ret] ++ out.trace },
        ?_, ?_, ?_, ?_, ?_, ?_, rfl, ?_, ?_, ?_, ?_⟩
      · rw [sendLoop_acked cfg data length fuel i cb reads _ hi hrecv2 hT hF, hrun]
        rfl
      · show out.ret = _
        rw [hres]
        simp
      · show _ :: _ :: out.trace = _
        rw [htrace]; rfl
      · simp [hws]
      · simp [hrets]
      · intro w hw
        rcases List.mem_cons.mp hw with rfl | hw
        · rfl
        · exact hflags w hw
      · show _ :: List.map _ ws = _
        rw [hdata]
        rfl
      · intro j hj
        cases j with
        | zero => simp at hj
        | succ j =>
          rw [List.getElem?_cons_succ] at hj
          obtain ⟨h1, w, h2, h3⟩ := htimeouts j hj
          exact ⟨by rw [List.getElem?_cons_succ]; exact h1, w,
            by rw [List.getElem?_cons_succ]; exact h2,
            by rw [List.getElem?_cons_succ]; exact h3⟩
      · intro j hj
        cases j with
        | zero => exact ⟨o.ret, List.getElem?_cons_zero, hT, hF⟩
        | succ j =>
          rw [List.getElem?_cons_succ] at hj
          obtain ⟨r, h1, h2⟩ := hacks j hj
          exact ⟨r, by rw [List.getElem?_cons_succ]; exact h1, h2⟩
      · intro j hj
        cases j with
        | zero => simp at hj
        | succ j =>
          rw [List.getElem?_cons_succ] at hj
          obtain ⟨h1, h2⟩ := hfails j hj
          exact ⟨by rw [List.getElem?_cons_succ]; exact h1, by simp only [List.length_cons]; omega⟩
    | failed =>
      have hTF : o.ret ≠ cfg.STCP_READ_TIMED_OUT ∧
          o.ret = cfg.STCP_READ_PERMANENT_FAILURE := by
        simpa [outcomeHolds] using hholds
      obtain ⟨hT, hF⟩ := hTF
      have hnil : ocs = [] := by
        simpa using hcover2
      subst hnil
      refine ⟨[chunkWrite cfg data length i cb], [o.ret], _,
        sendLoop_failed cfg data length fuel i cb reads _ hi hrecv2 hT hF, by simp, rfl, rfl,
        rfl, ?_, rfl, rfl, ?_, ?_, ?_⟩
      · intro w hw
        rw [List.mem_singleton] at hw
        rw [hw]; rfl
      · intro j hj
        cases j with
        | zero => simp at hj
        | succ j => simp at hj
      · intro j hj
        cases j with
        | zero => simp at hj
        | succ j => simp at hj
      · intro j hj
        cases j with
        | zero => exact ⟨by rw [List.getElem?_cons_zero, hF], rfl⟩
        | succ j => simp at hj

/-! ## Claims about stcp_send and stcp_close -/

/-- C7: for a buffer of k * STCP_MSS + r bytes with 0 < r < STCP_MSS, when each call of
tcpReceive made by stcp_send returns a received segment, stcp_send returns STCP_SUCCESS after
exactly k + 1 writes, each followed by exactly one call of tcpReceive before the next write;
every write carries the flag ACK; the payload of write number j is the slice of the buffer
that starts at offset j * STCP_MSS; the payload lengths are k times STCP_MSS and then r; and
the payloads in send order, put together, are the buffer. -/
theorem stcp_send_fragmentation (cfg : Config) (cb : stcp_send_ctrl_blk) (data : List Nat)
    (reads : List ReadResult) (k r mss : Nat) (hmss : cfg.STCP_MSS = mss)
    (hlen : data.length = k * mss + r) (hr0 : 0 < r) (hr : r < mss)
    (hack : ackedRounds cfg (k + 1) cb reads = true) :
    ∃ ws rets out,
      stcp_send cfg cb data data.length reads = .done out ∧
      out.ret = STCP_SUCCESS ∧
      out.trace = rounds ws rets ∧ ws.length = k + 1 ∧ rets.length = k + 1 ∧
      (∀ w ∈ ws, w.pkt.hdr.flags = cfg.ACK) ∧
      ws.map (fun w => w.pkt.data) =
        (List.range (k + 1)).map (fun j => (data.drop (j * mss)).take mss) ∧
      ws.map (fun w => w.pkt.data.length) = List.replicate k mss ++ [r] ∧
      (ws.map (fun w => w.pkt.data)).flatten = data ∧
      (∀ ret ∈ rets,
        ret ≠ cfg.STCP_READ_TIMED_OUT ∧ ret ≠ cfg.STCP_READ_PERMANENT_FAILURE) := by
  have hexp : (k + 1) * mss = k * mss + mss := by ring
  have hupN : data.length ≤ (k + 1) * mss := by omega
  have hup : (data.length : Int) ≤ 0 + ((k + 1 : Nat) : Int) * cfg.STCP_MSS := by
    rw [hmss, zero_add]
    exact_mod_cast hupN
  have hlow : ∀ m : Nat, m < k + 1 → (0 : Int) + m * cfg.STCP_MSS < (data.length : Int) := by
    intro m hm
    have hmul : m * mss ≤ k * mss := Nat.mul_le_mul_right mss (Nat.lt_succ_iff.mp hm)
    have hN : m * mss < data.length := by omega
    rw [hmss, zero_add]
    exact_mod_cast hN
  have hfuel : k + 1 < reads.length + 1 :=
    Nat.succ_lt_succ (ackedRounds_length cfg (k + 1) cb reads hack)
  obtain ⟨ws, rets, out, hrun, hret, _, htrace, hws, hrets, hflags, hdata, hok⟩ :=
    sendLoop_all_acked cfg data data.length (k + 1) (reads.length + 1) 0 cb reads hfuel hup hlow
      hack
  have hslices : ws.map (fun w => w.pkt.data) =
      (List.range (k + 1)).map (fun j => (data.drop (j * mss)).take mss) := by
    rw [hdata]
    apply List.map_congr_left
    intro m _
    exact chunkAt_slice cfg data mss m hmss
  refine ⟨ws, rets, out, hrun, hret, htrace, hws, hrets, hflags, hslices, ?_, ?_, hok⟩
  · have hcomp : ws.map (fun w => w.pkt.data.length) =
        (ws.map (fun w => w.pkt.data)).map List.length := by
      rw [List.map_map]; rfl
    rw [hcomp, hslices, List.map_map]
    exact slices_lengths mss k r data hlen hr
  · rw [hslices]
    exact slices_flatten mss k data hupN

/-- Instance of C7, the end-to-end scenario of the specification: 3000 bytes with
STCP_MSS = 1400 and three acknowledged rounds give payload lengths 1400, 1400 and 200. -/
theorem stcp_send_fragmentation_witness :
    ∃ ws rets out,
      stcp_send sampleConfig sampleCB (List.replicate 3000 0) (List.replicate 3000 0).length
        [segmentRead 16 101 8400 512 [], segmentRead 16 102 9800 512 [],
         segmentRead 16 103 10000 512 []] = .done out ∧
      out.ret = STCP_SUCCESS ∧
      out.trace = rounds ws rets ∧ ws.length = 2 + 1 ∧ rets.length = 2 + 1 ∧
      (∀ w ∈ ws, w.pkt.hdr.flags = sampleConfig.ACK) ∧
      ws.map (fun w => w.pkt.data) =
        (List.range (2 + 1)).map (fun j => ((List.replicate 3000 0).drop (j * 1400)).take 1400) ∧
      ws.map (fun w => w.pkt.data.length) = List.replicate 2 1400 ++ [200] ∧
      (ws.map (fun w => w.pkt.data)).flatten = List.replicate 3000 0 ∧
      (∀ ret ∈ rets,
        ret ≠ sampleConfig.STCP_READ_TIMED_OUT ∧
          ret ≠ sampleConfig.STCP_READ_PERMANENT_FAILURE) :=
  stcp_send_fragmentation sampleConfig sampleCB (List.replicate 3000 0)
    [segmentRead 16 101 8400 512 [], segmentRead 16 102 9800 512 [],
     segmentRead 16 103 10000 512 []] 2 200 1400 (by decide) (by rw [List.length_replicate]) (by decide) (by decide)
    (by decide)

/-- Every returned run of the loop of stcp_send has a list of outcomes that covers it. -/
theorem sendLoop_has_outcomes (cfg : Config) (data : List Nat) (length : Int) :
    ∀ (fuel : Nat) (i : Int) (cb : stcp_send_ctrl_blk) (reads : List ReadResult) (out : CallOut),
      sendLoop cfg data length fuel i cb reads = .done out →
        ∃ ocs, coversBuffer cfg.STCP_MSS length i ocs = true ∧
          outcomeRounds cfg ocs cb reads = true := by
  intro fuel
  induction fuel with
  | zero => intro i cb reads out h; simp [sendLoop] at h
  | succ fuel ih =>
    intro i cb reads out h
    by_cases hi : i < length
    · have hshift := tcpReceive_moreInFlight cfg
        (cfg.sizeofTcpheader + min cfg.STCP_MSS (length - i)) reads cb
      cases hrecv : tcpReceive cfg cb reads with
      | none =>
        rw [hrecv] at hshift
        rw [sendLoop_blocked cfg data length fuel i cb reads hi hshift] at h
        simp at h
      | some o =>
        rw [hrecv] at hshift
        have hrecv2 : tcpReceive cfg
            (tcpSend cfg cb cfg.ACK (data.drop i.toNat)
              (min cfg.STCP_MSS (length - i))).1 reads =
            some { o with
              cb := moreInFlight
                (cfg.sizeofTcpheader + min cfg.STCP_MSS (length - i)) o.cb } := hshift
        have hfirst : ∀ (oc : Outcome) (ocs : List Outcome),
            outcomeHolds cfg oc o.ret = true →
            outcomeRounds cfg ocs o.cb o.rest = true →
            outcomeRounds cfg (oc :: ocs) cb reads = true := by
          intro oc ocs h1 h2
          simp only [outcomeRounds, hrecv, h1, h2, Bool.and_self]
        by_cases hT : o.ret = cfg.STCP_READ_TIMED_OUT
        · rw [sendLoop_timedOut cfg data length fuel i cb reads _ hi hrecv2 hT] at h
          obtain ⟨o2, hrun, _⟩ := Run.after_eq_done _ _ _ h
          obtain ⟨ocs, hc, hr⟩ := ih i _ o.rest o2 hrun
          rw [outcomeRounds_moreInFlight] at hr
          refine ⟨Outcome.timedOut :: ocs, ?_, hfirst _ ocs (by simp [outcomeHolds, hT]) hr⟩
          simp [coversBuffer, nextOffset, hi, hc]
        · by_cases hF : o.ret = cfg.STCP_READ_PERMANENT_FAILURE
          · refine ⟨[Outcome.failed], ?_, hfirst _ []
              (by simp only [outcomeHolds, Bool.and_eq_true, decide_eq_true_eq]; exact ⟨hT, hF⟩)
              rfl⟩
            simp [coversBuffer, hi]
          · rw [sendLoop_acked cfg data length fuel i cb reads _ hi hrecv2 hT hF] at h
            obtain ⟨o2, hrun, _⟩ := Run.after_eq_done _ _ _ h
            obtain ⟨ocs, hc, hr⟩ := ih (i + cfg.STCP_MSS) _ o.rest o2 hrun
            rw [outcomeRounds_moreInFlight] at hr
            refine ⟨Outcome.received :: ocs, ?_, hfirst _ ocs
              (by simp only [outcomeHolds, Bool.and_eq_true, decide_eq_true_eq]; exact ⟨hT, hF⟩)
              hr⟩
            simp [coversBuffer, nextOffset, hi, hc]
    · exact ⟨[], by simp only [coversBuffer, decide_eq_true_eq]; omega, rfl⟩

/-- In the list of loop offsets, the entry after a timeout equals the entry before it. -/
theorem loopOffsets_timeout (mss : Int) :
    ∀ (ocs : List Outcome) (i : Int) (j : Nat), ocs[j]? = some Outcome.timedOut →
      j + 1 < ocs.length →
      ∃ off, (loopOffsets mss i ocs)[j]? = some off ∧
        (loopOffsets mss i ocs)[j + 1]? = some off := by
  intro ocs
  induction ocs with
  | nil => intro i j h; simp at h
  | cons oc ocs ih =>
    intro i j h hlen
    cases j with
    | zero =>
      rw [List.getElem?_cons_zero] at h
      cases h
      cases ocs with
      | nil => simp at hlen
      | cons oc2 ocs2 => exact ⟨i, by simp [loopOffsets], by simp [loopOffsets, nextOffset]⟩
    | succ j =>
      rw [List.getElem?_cons_succ] at h
      simp only [List.length_cons] at hlen
      obtain ⟨off, h1, h2⟩ := ih (nextOffset mss i oc) j h (by omega)
      exact ⟨off, by simp only [loopOffsets, List.getElem?_cons_succ]; exact h1,
        by simp only [loopOffsets, List.getElem?_cons_succ]; exact h2⟩

/-- C8: every run of stcp_send that returns has a list of the outcomes (timeout, failure,
received segment) of the calls of tcpReceive that stcp_send made.  Conversely, on any script on
which these calls have the listed outcomes until the buffer is exhausted or a call fails,
stcp_send returns with one write per call, each write followed by its call.  Whenever the call
that follows a write returns STCP_READ_TIMED_OUT, the next write is the very same segment
(same payload slice and length, same flags, same header seqNo and ackNo) at the same data
offset; the payload of every write is the slice at the offset listed, which advances, by
STCP_MSS, only after a call that returned a received segment. -/
theorem stcp_send_retransmits_on_timeout (cfg : Config) (cb : stcp_send_ctrl_blk)
    (data : List Nat) (length : Int) (reads : List ReadResult) :
    (∀ out, stcp_send cfg cb data length reads = .done out →
      ∃ ocs, coversBuffer cfg.STCP_MSS length 0 ocs = true ∧
        outcomeRounds cfg ocs cb reads = true) ∧
    (∀ ocs : List Outcome,
      coversBuffer cfg.STCP_MSS length 0 ocs = true →
      outcomeRounds cfg ocs cb reads = true →
      ∃ ws rets out,
        stcp_send cfg cb data length reads = .done out ∧
        out.ret = (if Outcome.failed ∈ ocs then STCP_ERROR else STCP_SUCCESS) ∧
        out.trace = rounds ws rets ∧ ws.length = ocs.length ∧ rets.length = ocs.length ∧
        (∀ w ∈ ws, w.pkt.hdr.flags = cfg.ACK) ∧
        ws.map (fun w => w.pkt.data) =
          (loopOffsets cfg.STCP_MSS 0 ocs).map (chunkAt cfg data length) ∧
        (∀ j : Nat, ocs[j]? = some Outcome.timedOut →
          rets[j]? = some cfg.STCP_READ_TIMED_OUT ∧
            (∃ w, ws[j]? = some w ∧ ws[j + 1]? = some w) ∧
            ∃ off, (loopOffsets cfg.STCP_MSS 0 ocs)[j]? = some off ∧
              (loopOffsets cfg.STCP_MSS 0 ocs)[j + 1]? = some off) ∧
        (∀ j : Nat, ocs[j]? = some Outcome.received →
          ∃ r, rets[j]? = some r ∧ r ≠ cfg.STCP_READ_TIMED_OUT ∧
            r ≠ cfg.STCP_READ_PERMANENT_FAILURE) ∧
        (∀ j : Nat, ocs[j]? = some Outcome.failed →
          rets[j]? = some cfg.STCP_READ_PERMANENT_FAILURE ∧ j + 1 = ocs.length)) := by
  refine ⟨?_, ?_⟩
  · intro out hrun
    exact sendLoop_has_outcomes cfg data length _ 0 cb reads out hrun
  · intro ocs hcover hout
    have hfuel : ocs.length < reads.length + 1 :=
      Nat.lt_succ_of_le (outcomeRounds_length cfg ocs cb reads hout)
    obtain ⟨ws, rets, out, hrun, hres, htrace, hws, hrets, hflags, _, hdata, htimeouts,
      hacks, hfails⟩ :=
      sendLoop_outcomes cfg data length ocs (reads.length + 1) 0 cb reads hfuel hcover hout
    refine ⟨ws, rets, out, hrun, hres, htrace, hws, hrets, hflags, hdata, ?_, hacks, hfails⟩
    intro j hj
    obtain ⟨h1, w, h2, h3⟩ := htimeouts j hj
    have hlen : j + 1 < ocs.length := by
      rw [← hws]
      by_contra hge
      rw [List.getElem?_eq_none (Nat.le_of_not_lt hge)] at h3
      cases h3
    exact ⟨h1, ⟨w, h2, h3⟩, loopOffsets_timeout cfg.STCP_MSS ocs 0 j hj hlen⟩

/-- Instance of C8: a three-byte buffer; the first reception times out, the second delivers
an acknowledgment.  The run returns, and the chunk at offset 0 is written twice. -/
theorem stcp_send_retransmits_on_timeout_witness :
    ∃ ws rets out,
      stcp_send sampleConfig sampleCB [1, 2, 3] 3
        [timeoutRead, segmentRead 16 101 7003 512 []] = .done out ∧
      out.ret = (if Outcome.failed ∈ [Outcome.timedOut, Outcome.received] then STCP_ERROR
        else STCP_SUCCESS) ∧
      out.trace = rounds ws rets ∧
      ws.length = [Outcome.timedOut, Outcome.received].length ∧
      rets.length = [Outcome.timedOut, Outcome.received].length ∧
      (∀ w ∈ ws, w.pkt.hdr.flags = sampleConfig.ACK) ∧
      ws.map (fun w => w.pkt.data) =
        (loopOffsets sampleConfig.STCP_MSS 0 [Outcome.timedOut, Outcome.received]).map
          (chunkAt sampleConfig [1, 2, 3] 3) ∧
      (∀ j : Nat, [Outcome.timedOut, Outcome.received][j]? = some Outcome.timedOut →
        rets[j]? = some sampleConfig.STCP_READ_TIMED_OUT ∧
          (∃ w, ws[j]? = some w ∧ ws[j + 1]? = some w) ∧
          ∃ off,
            (loopOffsets sampleConfig.STCP_MSS 0 [Outcome.timedOut, Outcome.received])[j]?
              = some off ∧
            (loopOffsets sampleConfig.STCP_MSS 0 [Outcome.timedOut, Outcome.received])[j + 1]?
              = some off) ∧
      (∀ j : Nat, [Outcome.timedOut, Outcome.received][j]? = some Outcome.received →
        ∃ r, rets[j]? = some r ∧ r ≠ sampleConfig.STCP_READ_TIMED_OUT ∧
          r ≠ sampleConfig.STCP_READ_PERMANENT_FAILURE) ∧
      (∀ j : Nat, [Outcome.timedOut, Outcome.received][j]? = some Outcome.failed →
        rets[j]? = some sampleConfig.STCP_READ_PERMANENT_FAILURE ∧
          j + 1 = [Outcome.timedOut, Outcome.received].length) :=
  (stcp_send_retransmits_on_timeout sampleConfig sampleCB [1, 2, 3] 3
    [timeoutRead, segmentRead 16 101 7003 512 []]).2 [Outcome.timedOut, Outcome.received]
    (by decide) (by decide)

/-- The calls of tcpReceive that stcp_send itself makes (a self-call of tcpReceive on a
duplicate is part of the call that makes it): stcp_send never runs out of fuel; with length at
most 0 it returns STCP_SUCCESS with state STCP_SENDER_CLOSING without sending; and whenever it
returns, it returns STCP_ERROR exactly when one of these calls returned
STCP_READ_PERMANENT_FAILURE, nothing is sent or received after such a return value, the state
is then the one on entry, and in every other case the result is STCP_SUCCESS with state
STCP_SENDER_CLOSING.  The timeout code and the failure code are assumed distinct. -/
theorem stcp_send_result (cfg : Config)
    (hne : cfg.STCP_READ_TIMED_OUT ≠ cfg.STCP_READ_PERMANENT_FAILURE)
    (cb : stcp_send_ctrl_blk) (data : List Nat) (length : Int) (reads : List ReadResult) :
    stcp_send cfg cb data length reads ≠ .fuelOut ∧
    (length ≤ 0 →
      stcp_send cfg cb data length reads =
        .done { ret := STCP_SUCCESS, cb := { cb with state := cfg.STCP_SENDER_CLOSING }
                rest := reads, trace := [] }) ∧
    ∀ out, stcp_send cfg cb data length reads = .done out →
      (out.ret = STCP_ERROR ↔
        Event.received cfg.STCP_READ_PERMANENT_FAILURE ∈ out.trace) ∧
      (∀ pre post,
        out.trace = pre ++ Event.received cfg.STCP_READ_PERMANENT_FAILURE :: post →
          post = []) ∧
      (out.ret = STCP_ERROR → out.cb.state = cb.state) ∧
      (out.ret ≠ STCP_ERROR →
        out.ret = STCP_SUCCESS ∧ out.cb.state = cfg.STCP_SENDER_CLOSING) := by
  refine ⟨?_, ?_, ?_⟩
  · exact sendLoop_ne_fuelOut cfg data length _ 0 cb reads (Nat.lt_succ_self _)
  · intro hlen
    exact sendLoop_exit cfg data length reads.length 0 cb reads (not_lt.mpr hlen)
  · intro out hout
    exact sendLoop_done_spec cfg data length hne _ 0 cb reads out hout

/-- C9, evaluation at the failing input.  A three-byte buffer is sent from a control block with
state 2 and ackNo 100.  The first read delivers a duplicate (header seqNo 50, length 23); the
self-call that tcpReceive makes at line 89 reads a permanent failure and returns
STCP_READ_PERMANENT_FAILURE (-1); its result is discarded, the outer call returns 23, and
stcp_send returns STCP_SUCCESS (1) with state STCP_SENDER_CLOSING (4) instead of STCP_ERROR
(-1) with state 2.  With a buffer of two chunks the second chunk is still written after the
failure. -/
theorem stcp_send_success_after_failure :
    (sampleCB.state = 2 ∧ STCP_ERROR = -1 ∧ STCP_SUCCESS = 1 ∧
      sampleConfig.STCP_READ_PERMANENT_FAILURE = -1 ∧ sampleConfig.STCP_SENDER_CLOSING = 4) ∧
    (tcpReceive sampleConfig (chunkSent sampleConfig [1, 2, 3] 3 0 sampleCB) [failureRead]).map
      (fun o => o.ret) = some (-1) ∧
    (tcpReceive sampleConfig (chunkSent sampleConfig [1, 2, 3] 3 0 sampleCB)
      [segmentRead 16 50 9000 512 [1, 2, 3], failureRead]).map (fun o => o.ret) = some 23 ∧
    (stcp_send sampleConfig sampleCB [1, 2, 3] 3
      [segmentRead 16 50 9000 512 [1, 2, 3], failureRead]).final.map
      (fun q => (q.1, q.2.state)) = some (1, 4) ∧
    (match stcp_send sampleConfig sampleCB (List.replicate 1500 0) 1500
        [segmentRead 16 50 9000 512 [1, 2, 3], failureRead, segmentRead 16 60 9000 512 []] with
      | .done out => some (out.ret, out.trace.map (fun e =>
          match e with
          | .sent w => w.size
          | .received r => r))
      | _ => none) = some (1, [1420, 23, 120, 20]) := by
  decide

/-- C10: whatever the one call of tcpReceive returns (a length, the timeout code or the
failure code), stcp_close returns STCP_SUCCESS with state STCP_SENDER_CLOSED, and its trace
is: a segment flagged FIN|ACK without payload, the call of tcpReceive, a segment flagged ACK
alone without payload. -/
theorem stcp_close_handshake (cfg : Config) (cb : stcp_send_ctrl_blk) (reads : List ReadResult)
    (o : RecvOut) (hrecv : tcpReceive cfg (closeSent cfg cb) reads = some o) :
    ∃ w1 w2 out,
      stcp_close cfg cb reads = .done out ∧
      out.trace = [.sent w1, .received o.ret, .sent w2] ∧
      w1.pkt.hdr.flags = cfg.FIN ||| cfg.ACK ∧ w1.pkt.data = [] ∧
      w1.size = cfg.sizeofTcpheader + 0 ∧
      w2.pkt.hdr.flags = cfg.ACK ∧ w2.pkt.data = [] ∧
      w2.size = cfg.sizeofTcpheader + 0 ∧
      out.cb.state = cfg.STCP_SENDER_CLOSED ∧
      out.ret = STCP_SUCCESS := by
  refine ⟨(tcpSend cfg cb (cfg.FIN ||| cfg.ACK) [] 0).2, (tcpSend cfg o.cb cfg.ACK [] 0).2,
    { ret := STCP_SUCCESS
      cb := { (tcpSend cfg o.cb cfg.ACK [] 0).1 with state := cfg.STCP_SENDER_CLOSED }
      rest := o.rest
      trace := [.sent (tcpSend cfg cb (cfg.FIN ||| cfg.ACK) [] 0).2, .received o.ret,
                .sent (tcpSend cfg o.cb cfg.ACK [] 0).2] },
    ?_, rfl, rfl, rfl, rfl, rfl, rfl, rfl, rfl, rfl⟩
  unfold closeSent at hrecv
  simp only [stcp_close, hrecv]

/-- Instance of C10: the response to the FIN/ACK is a timeout. -/
theorem stcp_close_handshake_witness :
    ∃ w1 w2 out,
      stcp_close sampleConfig sampleCB [timeoutRead] = .done out ∧
      out.trace = [.sent w1, .received (-2), .sent w2] ∧
      w1.pkt.hdr.flags = sampleConfig.FIN ||| sampleConfig.ACK ∧ w1.pkt.data = [] ∧
      w1.size = sampleConfig.sizeofTcpheader + 0 ∧
      w2.pkt.hdr.flags = sampleConfig.ACK ∧ w2.pkt.data = [] ∧
      w2.size = sampleConfig.sizeofTcpheader + 0 ∧
      out.cb.state = sampleConfig.STCP_SENDER_CLOSED ∧
      out.ret = STCP_SUCCESS :=
  stcp_close_handshake sampleConfig sampleCB [timeoutRead]
    { ret := -2
      cb := { sampleCB with state := 3, timeout := 4000, inFlight := 80 }
      rest := [] }
    (by decide)

/-! ## The open loop -/

/-- No path through tcpReceive assigns fd, sendersPort or receiversPort. -/
theorem tcpReceive_endpoints (cfg : Config) :
    ∀ (reads : List ReadResult) (cb : stcp_send_ctrl_blk) (o : RecvOut),
      tcpReceive cfg cb reads = some o →
        o.cb.fd = cb.fd ∧ o.cb.sendersPort = cb.sendersPort ∧
          o.cb.receiversPort = cb.receiversPort := by
  intro reads
  induction reads with
  | nil => intro cb o h; simp [tcpReceive] at h
  | cons r rest ih =>
    intro cb o h
    by_cases hT : r.status = cfg.STCP_READ_TIMED_OUT
    · rw [tcpReceive_timedOut cfg cb r rest hT] at h
      cases h; exact ⟨rfl, rfl, rfl⟩
    · by_cases hF : r.status = cfg.STCP_READ_PERMANENT_FAILURE
      · rw [tcpReceive_failed cfg cb r rest hT hF] at h
        cases h; exact ⟨rfl, rfl, rfl⟩
      · by_cases hd : r.pkt.hdr.seqNo ≤ cb.ackNo
        · rw [tcpReceive_duplicate cfg cb r rest hT hF hd] at h
          cases hin : tcpReceive cfg cb rest with
          | none => simp [hin] at h
          | some inner =>
            simp only [hin, Option.map_some', Option.some.injEq] at h
            subst h
            exact ih cb inner hin
        · rw [tcpReceive_fresh cfg cb r rest hT hF (Nat.lt_of_not_le hd)] at h
          cases h; exact ⟨rfl, rfl, rfl⟩

/-- A call that returns neither the timeout code nor the failure code has read a segment first,
returns its length, and leaves seqNo, ackNo, windowSize and timeout as lines 92-100 set them
from that segment. -/
theorem tcpReceive_received_fields (cfg : Config) (cb : stcp_send_ctrl_blk)
    (reads : List ReadResult) (o : RecvOut) (h : tcpReceive cfg cb reads = some o)
    (hT : o.ret ≠ cfg.STCP_READ_TIMED_OUT) (hF : o.ret ≠ cfg.STCP_READ_PERMANENT_FAILURE) :
    ∃ r rest, reads = r :: rest ∧ o.ret = r.status ∧
      r.status ≠ cfg.STCP_READ_TIMED_OUT ∧ r.status ≠ cfg.STCP_READ_PERMANENT_FAILURE ∧
      o.cb.seqNo = r.pkt.hdr.ackNo ∧ o.cb.windowSize = r.pkt.hdr.windowSize ∧
      o.cb.ackNo = (applySegment cfg cb r).ackNo ∧
      o.cb.timeout = cfg.STCP_INITIAL_TIMEOUT := by
  cases reads with
  | nil => simp [tcpReceive] at h
  | cons r rest =>
    by_cases hrT : r.status = cfg.STCP_READ_TIMED_OUT
    · rw [tcpReceive_timedOut cfg cb r rest hrT] at h
      cases h; exact absurd rfl hT
    · by_cases hrF : r.status = cfg.STCP_READ_PERMANENT_FAILURE
      · rw [tcpReceive_failed cfg cb r rest hrT hrF] at h
        cases h; exact absurd rfl hF
      · by_cases hd : r.pkt.hdr.seqNo ≤ cb.ackNo
        · rw [tcpReceive_duplicate cfg cb r rest hrT hrF hd] at h
          cases hin : tcpReceive cfg cb rest with
          | none => simp [hin] at h
          | some inner =>
            simp only [hin, Option.map_some', Option.some.injEq] at h
            subst h
            exact ⟨r, rest, rfl, rfl, hrT, hrF, rfl, rfl, rfl, rfl⟩
        · rw [tcpReceive_fresh cfg cb r rest hrT hrF (Nat.lt_of_not_le hd)] at h
          cases h
          exact ⟨r, rest, rfl, rfl, hrT, hrF, rfl, rfl, rfl, rfl⟩

/-- A pass through the loop of stcp_open whose call of tcpReceive returns the timeout code:
the loop is entered again. -/
theorem openLoop_timedOut (cfg : Config) (fuel : Nat) (cb : stcp_send_ctrl_blk)
    (reads : List ReadResult) (o : RecvOut)
    (hrecv : tcpReceive cfg (synSent cfg 0 cb) reads = some o)
    (hret : o.ret = cfg.STCP_READ_TIMED_OUT) :
    openLoop cfg (fuel + 1) cb reads =
      Run.afterOpen [.sent (synWrite cfg cb), .received cfg.STCP_READ_TIMED_OUT]
        (openLoop cfg fuel o.cb o.rest) := by
  have hcb : synSent cfg 0 cb =
      { (tcpSend cfg cb cfg.SYN [] 0).1 with state := cfg.STCP_SENDER_SYN_SENT } := by
    simp [synSent, tcpSend]
  rw [hcb] at hrecv
  simp only [openLoop, hrecv, hret, if_true, synWrite]

/-- A pass through the loop of stcp_open whose call of tcpReceive returns anything but the
timeout code: stcp_open returns, NULL for the failure code and the control block otherwise. -/
theorem openLoop_returns (cfg : Config) (fuel : Nat) (cb : stcp_send_ctrl_blk)
    (reads : List ReadResult) (o : RecvOut)
    (hrecv : tcpReceive cfg (synSent cfg 0 cb) reads = some o)
    (hret : o.ret ≠ cfg.STCP_READ_TIMED_OUT) :
    openLoop cfg (fuel + 1) cb reads =
      .done { ret := if o.ret = cfg.STCP_READ_PERMANENT_FAILURE then none
                     else some { o.cb with state := cfg.STCP_SENDER_ESTABLISHED }
              rest := o.rest
              trace := [.sent (synWrite cfg cb), .received o.ret] } := by
  have hcb : synSent cfg 0 cb =
      { (tcpSend cfg cb cfg.SYN [] 0).1 with state := cfg.STCP_SENDER_SYN_SENT } := by
    simp [synSent, tcpSend]
  rw [hcb] at hrecv
  simp only [openLoop, hrecv, synWrite]
  rw [if_neg hret]
  by_cases hF : o.ret = cfg.STCP_READ_PERMANENT_FAILURE
  · rw [if_pos hF, if_pos hF]
  · rw [if_neg hF, if_neg hF]

/-- The script ends during the call of tcpReceive made by stcp_open. -/
theorem openLoop_blocked (cfg : Config) (fuel : Nat) (cb : stcp_send_ctrl_blk)
    (reads : List ReadResult) (hrecv : tcpReceive cfg (synSent cfg 0 cb) reads = none) :
    openLoop cfg (fuel + 1) cb reads = .blocked := by
  have hcb : synSent cfg 0 cb =
      { (tcpSend cfg cb cfg.SYN [] 0).1 with state := cfg.STCP_SENDER_SYN_SENT } := by
    simp [synSent, tcpSend]
  rw [hcb] at hrecv
  simp only [openLoop, hrecv]

/-- After a timed-out pass from cb, the pass number n + 1 from the control block returned is
the pass number n + 2 from cb. -/
theorem synSent_after_timeout (cfg : Config) (n : Nat) (cb : stcp_send_ctrl_blk) :
    synSent cfg n
        { synSent cfg 0 cb with timeout := cfg.stcpNextTimeout (synSent cfg 0 cb).timeout } =
      synSent cfg (n + 1) cb := by
  simp only [synSent, Function.iterate_succ_apply, Function.iterate_zero, id_eq,
    stcp_send_ctrl_blk.mk.injEq, true_and, and_true]
  push_cast
  ring

/-- Adequacy of the fuel: with more fuel than reads the loop of stcp_open never stops for lack
of fuel. -/
theorem openLoop_ne_fuelOut (cfg : Config) :
    ∀ (fuel : Nat) (cb : stcp_send_ctrl_blk) (reads : List ReadResult),
      reads.length < fuel → openLoop cfg fuel cb reads ≠ .fuelOut := by
  intro fuel
  induction fuel with
  | zero => intro cb reads h; omega
  | succ fuel ih =>
    intro cb reads hlen
    cases hrecv : tcpReceive cfg (synSent cfg 0 cb) reads with
    | none => rw [openLoop_blocked cfg fuel cb reads hrecv]; simp
    | some o =>
      have hrest := tcpReceive_rest_length cfg reads _ o hrecv
      by_cases hT : o.ret = cfg.STCP_READ_TIMED_OUT
      · rw [openLoop_timedOut cfg fuel cb reads o hrecv hT]
        have := ih o.cb o.rest (by omega)
        cases hrun : openLoop cfg fuel o.cb o.rest with
        | done a => simp [Run.afterOpen]
        | blocked => simp [Run.afterOpen]
        | fuelOut => exact absurd hrun this
      · rw [openLoop_returns cfg fuel cb reads o hrecv hT]; simp

/-- Putting events in front of a run of stcp_open gives a returned run exactly when the run
returned. -/
theorem Run.afterOpen_eq_done (es : List Event) (run : Run OpenOut) (out : OpenOut)
    (h : Run.afterOpen es run = .done out) :
    ∃ o, run = .done o ∧ out = { o with trace := es ++ o.trace } := by
  cases run with
  | done o => exact ⟨o, rfl, by simpa [Run.afterOpen] using h.symm⟩
  | blocked => simp [Run.afterOpen] at h
  | fuelOut => simp [Run.afterOpen] at h

/-- The loop of stcp_open on a script that starts with reads that time out, followed by a
call of tcpReceive that returns something else: one SYN segment per pass, all equal, and the
result decided by the last return value. -/
theorem openLoop_after_timeouts (cfg : Config) :
    ∀ (tos : List ReadResult) (fuel : Nat) (cb : stcp_send_ctrl_blk) (tail : List ReadResult)
      (o : RecvOut),
      (∀ t ∈ tos, t.status = cfg.STCP_READ_TIMED_OUT) →
      tos.length < fuel →
      tcpReceive cfg (synSent cfg tos.length cb) tail = some o →
      o.ret ≠ cfg.STCP_READ_TIMED_OUT →
      openLoop cfg fuel cb (tos ++ tail) =
        .done { ret := if o.ret = cfg.STCP_READ_PERMANENT_FAILURE then none
                       else some { o.cb with state := cfg.STCP_SENDER_ESTABLISHED }
                rest := o.rest
                trace := rounds (List.replicate (tos.length + 1) (synWrite cfg cb))
                  (List.replicate tos.length cfg.STCP_READ_TIMED_OUT ++ [o.ret]) } := by
  intro tos
  induction tos with
  | nil =>
    intro fuel cb tail o _ hfuel hrecv hret
    obtain ⟨fuel, rfl⟩ : ∃ f, fuel = f + 1 := ⟨fuel - 1, by simp at hfuel; omega⟩
    rw [List.nil_append, openLoop_returns cfg fuel cb tail o hrecv hret]
    rfl
  | cons t tos ih =>
    intro fuel cb tail o hall hfuel hrecv hret
    obtain ⟨fuel, rfl⟩ : ∃ f, fuel = f + 1 := ⟨fuel - 1, by omega⟩
    have ht : t.status = cfg.STCP_READ_TIMED_OUT := hall t (List.mem_cons_self _ _)
    have hfirst := tcpReceive_timedOut cfg (synSent cfg 0 cb) t (tos ++ tail) ht
    rw [List.cons_append, openLoop_timedOut cfg fuel cb (t :: (tos ++ tail)) _ hfirst rfl]
    have hrecv2 : tcpReceive cfg
        (synSent cfg tos.length
          { synSent cfg 0 cb with
            timeout := cfg.stcpNextTimeout (synSent cfg 0 cb).timeout }) tail = some o := by
      rw [synSent_after_timeout]; exact hrecv
    have hlen : tos.length < fuel := by
      simp only [List.length_cons] at hfuel; omega
    rw [ih fuel _ tail o (fun x hx => hall x (List.mem_cons_of_mem _ hx)) hlen hrecv2 hret]
    rfl

/-- Whenever the loop of stcp_open returns, its trace consists of equal SYN writes, each
followed by a reception; all receptions but the last returned the timeout code, the last one
did not, and the result is NULL exactly when the last one returned the failure code. -/
theorem openLoop_done_shape (cfg : Config) :
    ∀ (fuel : Nat) (cb : stcp_send_ctrl_blk) (reads : List ReadResult) (out : OpenOut),
      openLoop cfg fuel cb reads = .done out →
        ∃ n ret,
          out.trace = rounds (List.replicate (n + 1) (synWrite cfg cb))
            (List.replicate n cfg.STCP_READ_TIMED_OUT ++ [ret]) ∧
          ret ≠ cfg.STCP_READ_TIMED_OUT ∧
          (out.ret = none ↔ ret = cfg.STCP_READ_PERMANENT_FAILURE) := by
  intro fuel
  induction fuel with
  | zero => intro cb reads out h; simp [openLoop] at h
  | succ fuel ih =>
    intro cb reads out h
    cases hrecv : tcpReceive cfg (synSent cfg 0 cb) reads with
    | none => rw [openLoop_blocked cfg fuel cb reads hrecv] at h; simp at h
    | some o =>
      by_cases hT : o.ret = cfg.STCP_READ_TIMED_OUT
      · rw [openLoop_timedOut cfg fuel cb reads o hrecv hT] at h
        obtain ⟨o2, hrun, hout⟩ := Run.afterOpen_eq_done _ _ _ h
        obtain ⟨n, ret, htrace, hret, hnull⟩ := ih o.cb o.rest o2 hrun
        have hcb := tcpReceive_ret_timedOut cfg _ reads o hrecv hT
        have hw : synWrite cfg o.cb = synWrite cfg cb := by rw [hcb]; rfl
        subst hout
        refine ⟨n + 1, ret, ?_, hret, hnull⟩
        show _ :: _ :: o2.trace = _
        rw [htrace, hw]
        rfl
      · rw [openLoop_returns cfg fuel cb reads o hrecv hT] at h
        cases h
        refine ⟨0, o.ret, rfl, hT, ?_⟩
        by_cases hF : o.ret = cfg.STCP_READ_PERMANENT_FAILURE
        · simp [hF]
        · simp [hF]

/-- A call whose first read delivers a segment returns the length of that segment. -/
theorem tcpReceive_segment_ret (cfg : Config) (cb : stcp_send_ctrl_blk) (r : ReadResult)
    (rest : List ReadResult) (o : RecvOut) (hT : r.status ≠ cfg.STCP_READ_TIMED_OUT)
    (hF : r.status ≠ cfg.STCP_READ_PERMANENT_FAILURE)
    (h : tcpReceive cfg cb (r :: rest) = some o) : o.ret = r.status := by
  by_cases hd : r.pkt.hdr.seqNo ≤ cb.ackNo
  · rw [tcpReceive_duplicate cfg cb r rest hT hF hd] at h
    cases hin : tcpReceive cfg cb rest with
    | none => simp [hin] at h
    | some inner =>
      simp only [hin, Option.map_some', Option.some.injEq] at h
      subst h
      rfl
  · rw [tcpReceive_fresh cfg cb r rest hT hF (Nat.lt_of_not_le hd)] at h
    cases h
    rfl

/-! ## Claims about stcp_open -/

/-- C11: when the first n receptions of stcp_open time out and reception number n + 1 delivers
a segment, stcp_open returns after exactly n + 1 writes, each followed by one reception; every
write is the same segment, flagged SYN, without payload, with the initial sequence number and
ackNo 0; the result is a control block with state STCP_SENDER_ESTABLISHED, the ports passed as
arguments, and seqNo, windowSize and ackNo as lines 92-99 of tcpReceive set them from the
segment received. -/
theorem stcp_open_handshake (cfg : Config) (fd : Int) (rnd : Nat)
    (sendersPort receiversPort : Int) (n : Nat) (tos : List ReadResult) (r : ReadResult)
    (rest : List ReadResult) (o : RecvOut) (hn : tos.length = n)
    (hall : ∀ t ∈ tos, t.status = cfg.STCP_READ_TIMED_OUT)
    (hT : r.status ≠ cfg.STCP_READ_TIMED_OUT)
    (hF : r.status ≠ cfg.STCP_READ_PERMANENT_FAILURE)
    (hrecv : tcpReceive cfg
      (synSent cfg n (openInit cfg fd rnd sendersPort receiversPort)) (r :: rest) = some o) :
    ∃ cb,
      stcp_open cfg fd rnd sendersPort receiversPort (tos ++ r :: rest) =
        .done { ret := some cb, rest := o.rest
                trace :=
                  rounds
                    (List.replicate (n + 1)
                      (synWrite cfg (openInit cfg fd rnd sendersPort receiversPort)))
                    (List.replicate n cfg.STCP_READ_TIMED_OUT ++ [r.status]) } ∧
      (synWrite cfg (openInit cfg fd rnd sendersPort receiversPort)).pkt.hdr.flags = cfg.SYN ∧
      (synWrite cfg (openInit cfg fd rnd sendersPort receiversPort)).pkt.data = [] ∧
      (synWrite cfg (openInit cfg fd rnd sendersPort receiversPort)).size
        = cfg.sizeofTcpheader + 0 ∧
      (synWrite cfg (openInit cfg fd rnd sendersPort receiversPort)).pkt.hdr.seqNo
        = rnd % 4294967296 ∧
      (synWrite cfg (openInit cfg fd rnd sendersPort receiversPort)).pkt.hdr.ackNo = 0 ∧
      cb.state = cfg.STCP_SENDER_ESTABLISHED ∧
      cb.sendersPort = sendersPort ∧ cb.receiversPort = receiversPort ∧
      cb.seqNo = r.pkt.hdr.ackNo ∧ cb.windowSize = r.pkt.hdr.windowSize ∧
      cb.ackNo =
        (if cfg.getSyn r.pkt.hdr || cfg.getFin r.pkt.hdr then (r.pkt.hdr.seqNo + 1) % 2 ^ 32
         else (((r.pkt.hdr.seqNo : Int) + cfg.payloadSize r.pkt) % 2 ^ 32).toNat) := by
  subst hn
  have hret : o.ret = r.status := tcpReceive_segment_ret cfg _ r rest o hT hF hrecv
  have hoT : o.ret ≠ cfg.STCP_READ_TIMED_OUT := by rw [hret]; exact hT
  have hoF : o.ret ≠ cfg.STCP_READ_PERMANENT_FAILURE := by rw [hret]; exact hF
  have hrun := openLoop_after_timeouts cfg tos ((tos ++ r :: rest).length + 1)
    (openInit cfg fd rnd sendersPort receiversPort) (r :: rest) o hall
    (by simp only [List.length_append, List.length_cons]; omega) hrecv hoT
  rw [if_neg hoF, hret] at hrun
  obtain ⟨_, hsp, hrp⟩ := tcpReceive_endpoints cfg (r :: rest) _ o hrecv
  obtain ⟨r2, rest2, hcons, _, _, _, hseq, hwin, hack, _⟩ :=
    tcpReceive_received_fields cfg _ (r :: rest) o hrecv hoT hoF
  obtain ⟨rfl, rfl⟩ := List.cons.inj hcons
  exact ⟨{ o.cb with state := cfg.STCP_SENDER_ESTABLISHED }, hrun, rfl, rfl, rfl, rfl, rfl, rfl,
    hsp, hrp, hseq, hwin, hack⟩

/-- Instance of C11: one timeout, then a SYN|ACK segment with seqNo 500, ackNo 7001 and
window 512. -/
theorem stcp_open_handshake_witness :
    ∃ cb,
      stcp_open sampleConfig 3 7000 5001 5000 ([timeoutRead] ++ segmentRead 18 500 7001 512 [] :: [])
        = .done { ret := some cb, rest := []
                  trace :=
                    rounds
                      (List.replicate (1 + 1)
                        (synWrite sampleConfig (openInit sampleConfig 3 7000 5001 5000)))
                      (List.replicate 1 sampleConfig.STCP_READ_TIMED_OUT ++ [20]) } ∧
      (synWrite sampleConfig (openInit sampleConfig 3 7000 5001 5000)).pkt.hdr.flags
        = sampleConfig.SYN ∧
      (synWrite sampleConfig (openInit sampleConfig 3 7000 5001 5000)).pkt.data = [] ∧
      (synWrite sampleConfig (openInit sampleConfig 3 7000 5001 5000)).size
        = sampleConfig.sizeofTcpheader + 0 ∧
      (synWrite sampleConfig (openInit sampleConfig 3 7000 5001 5000)).pkt.hdr.seqNo
        = 7000 % 4294967296 ∧
      (synWrite sampleConfig (openInit sampleConfig 3 7000 5001 5000)).pkt.hdr.ackNo = 0 ∧
      cb.state = sampleConfig.STCP_SENDER_ESTABLISHED ∧
      cb.sendersPort = 5001 ∧ cb.receiversPort = 5000 ∧
      cb.seqNo = 7001 ∧ cb.windowSize = 512 ∧
      cb.ackNo =
        (if sampleConfig.getSyn (segmentRead 18 500 7001 512 []).pkt.hdr
            || sampleConfig.getFin (segmentRead 18 500 7001 512 []).pkt.hdr
         then (500 + 1) % 2 ^ 32
         else ((((500 : Nat) : Int)
            + sampleConfig.payloadSize (segmentRead 18 500 7001 512 []).pkt) % 2 ^ 32).toNat) :=
  stcp_open_handshake sampleConfig 3 7000 5001 5000 1 [timeoutRead]
    (segmentRead 18 500 7001 512 []) []
    { ret := 20
      cb := applySegment sampleConfig
        (synSent sampleConfig 1 (openInit sampleConfig 3 7000 5001 5000))
        (segmentRead 18 500 7001 512 [])
      rest := [] }
    rfl (by decide) (by decide) (by decide) (by decide)

/-- C12: when the first n receptions of stcp_open time out and reception number n + 1 fails
permanently, stcp_open returns NULL after n + 1 SYN writes and nothing is written after the
failed reception.  In no other case is the result NULL: stcp_open never runs out of fuel, and
whenever it returns NULL its trace ends with a reception that returned the failure code, all
receptions before it having returned the timeout code.  The timeout code and the failure code
are assumed distinct. -/
theorem stcp_open_failure (cfg : Config)
    (hne : cfg.STCP_READ_TIMED_OUT ≠ cfg.STCP_READ_PERMANENT_FAILURE) (fd : Int) (rnd : Nat)
    (sendersPort receiversPort : Int) (n : Nat) (tos : List ReadResult) (r : ReadResult)
    (rest : List ReadResult) (hn : tos.length = n)
    (hall : ∀ t ∈ tos, t.status = cfg.STCP_READ_TIMED_OUT)
    (hfail : r.status = cfg.STCP_READ_PERMANENT_FAILURE) :
    stcp_open cfg fd rnd sendersPort receiversPort (tos ++ r :: rest) =
        .done { ret := none, rest := rest
                trace :=
                  rounds
                    (List.replicate (n + 1)
                      (synWrite cfg (openInit cfg fd rnd sendersPort receiversPort)))
                    (List.replicate n cfg.STCP_READ_TIMED_OUT ++
                      [cfg.STCP_READ_PERMANENT_FAILURE]) } ∧
      (∀ reads, stcp_open cfg fd rnd sendersPort receiversPort reads ≠ .fuelOut) ∧
      (∀ reads out, stcp_open cfg fd rnd sendersPort receiversPort reads = .done out →
        out.ret = none →
          ∃ m, out.trace =
            rounds
              (List.replicate (m + 1)
                (synWrite cfg (openInit cfg fd rnd sendersPort receiversPort)))
              (List.replicate m cfg.STCP_READ_TIMED_OUT ++
                [cfg.STCP_READ_PERMANENT_FAILURE])) := by
  subst hn
  have hT : r.status ≠ cfg.STCP_READ_TIMED_OUT := by
    rw [hfail]; exact fun h => hne h.symm
  have hrecv := tcpReceive_failed cfg
    (synSent cfg tos.length (openInit cfg fd rnd sendersPort receiversPort)) r rest hT hfail
  have hrun := openLoop_after_timeouts cfg tos ((tos ++ r :: rest).length + 1)
    (openInit cfg fd rnd sendersPort receiversPort) (r :: rest) _ hall
    (by simp only [List.length_append, List.length_cons]; omega) hrecv
    (fun h => hne h.symm)
  rw [if_pos rfl] at hrun
  refine ⟨hrun, ?_, ?_⟩
  · intro reads
    exact openLoop_ne_fuelOut cfg _ _ reads (Nat.lt_succ_self _)
  · intro reads out hout hnull
    obtain ⟨m, ret, htrace, _, hiff⟩ := openLoop_done_shape cfg _ _ reads out hout
    exact ⟨m, by rw [htrace, hiff.mp hnull]⟩

/-- Instance of C12: one timeout, then a permanent failure. -/
theorem stcp_open_failure_witness :
    stcp_open sampleConfig 3 7000 5001 5000 ([timeoutRead] ++ failureRead :: []) =
      .done { ret := none, rest := []
              trace :=
                rounds
                  (List.replicate (1 + 1)
                    (synWrite sampleConfig (openInit sampleConfig 3 7000 5001 5000)))
                  (List.replicate 1 sampleConfig.STCP_READ_TIMED_OUT ++
                    [sampleConfig.STCP_READ_PERMANENT_FAILURE]) } :=
  (stcp_open_failure sampleConfig (by decide) 3 7000 5001 5000 1 [timeoutRead] failureRead []
    rfl (by decide) (by decide)).1

/-! ## Further claims about tcpSend and tcpReceive -/

/-- The first reads of the script time out: that many calls of tcpReceive in a row return the
timeout code each and only advance the timeout. -/
theorem receiveCalls_timeouts (cfg : Config) :
    ∀ (tos : List ReadResult) (cb : stcp_send_ctrl_blk) (rest : List ReadResult),
      (∀ t ∈ tos, t.status = cfg.STCP_READ_TIMED_OUT) →
      receiveCalls cfg tos.length cb (tos ++ rest) =
        some { rets := List.replicate tos.length cfg.STCP_READ_TIMED_OUT
               cb := { cb with timeout := Nat.iterate cfg.stcpNextTimeout tos.length cb.timeout }
               rest := rest } := by
  intro tos
  induction tos with
  | nil => intro cb rest _; rfl
  | cons t tos ih =>
    intro cb rest hall
    have ht : t.status = cfg.STCP_READ_TIMED_OUT := hall t (List.mem_cons_self _ _)
    simp only [List.length_cons, List.cons_append, receiveCalls,
      tcpReceive_timedOut cfg cb t (tos ++ rest) ht,
      ih _ rest (fun x hx => hall x (List.mem_cons_of_mem _ hx))]
    rfl

/-- Iterating a function that, between a start value and a cap, neither decreases its argument
nor leaves the range keeps the iterates in the range and in non-decreasing order. -/
theorem iterate_bounded (f : Int → Int) (lo cap : Int) (hlo : lo ≤ cap)
    (hstep : ∀ t, lo ≤ t → t ≤ cap → t ≤ f t ∧ f t ≤ cap) :
    ∀ m : Nat, lo ≤ Nat.iterate f m lo ∧ Nat.iterate f m lo ≤ Nat.iterate f (m + 1) lo ∧
      Nat.iterate f (m + 1) lo ≤ cap := by
  intro m
  induction m with
  | zero =>
    have h := hstep lo (le_refl _) hlo
    exact ⟨le_refl _, h.1, h.2⟩
  | succ m ih =>
    obtain ⟨h1, h2, h3⟩ := ih
    have h := hstep (Nat.iterate f (m + 1) lo) (le_trans h1 h2) h3
    rw [Function.iterate_succ_apply' f (m + 1) lo]
    exact ⟨le_trans h1 h2, h.1, h.2⟩

/-- C13: starting from cb.timeout = STCP_INITIAL_TIMEOUT, N calls of tcpReceive in a row whose
reads time out return the timeout code each and leave cb.timeout equal to the N-fold
application of stcpNextTimeout to STCP_INITIAL_TIMEOUT, nothing else changed.  If, between
STCP_INITIAL_TIMEOUT and a cap, stcpNextTimeout neither decreases its argument nor exceeds the
cap, the timeout values are non-decreasing and at most the cap.  A following call that
receives a new segment sets cb.timeout to STCP_INITIAL_TIMEOUT. -/
theorem tcpReceive_backoff (cfg : Config) (cb : stcp_send_ctrl_blk) (N : Nat)
    (tos rest : List ReadResult) (hinit : cb.timeout = cfg.STCP_INITIAL_TIMEOUT)
    (hN : tos.length = N) (hall : ∀ t ∈ tos, t.status = cfg.STCP_READ_TIMED_OUT) :
    receiveCalls cfg N cb (tos ++ rest) =
        some { rets := List.replicate N cfg.STCP_READ_TIMED_OUT
               cb := { cb with
                 timeout := Nat.iterate cfg.stcpNextTimeout N cfg.STCP_INITIAL_TIMEOUT }
               rest := rest } ∧
      (∀ cap : Int, cfg.STCP_INITIAL_TIMEOUT ≤ cap →
        (∀ t, cfg.STCP_INITIAL_TIMEOUT ≤ t → t ≤ cap →
          t ≤ cfg.stcpNextTimeout t ∧ cfg.stcpNextTimeout t ≤ cap) →
        ∀ m : Nat,
          Nat.iterate cfg.stcpNextTimeout m cfg.STCP_INITIAL_TIMEOUT ≤
              Nat.iterate cfg.stcpNextTimeout (m + 1) cfg.STCP_INITIAL_TIMEOUT ∧
            Nat.iterate cfg.stcpNextTimeout m cfg.STCP_INITIAL_TIMEOUT ≤ cap) ∧
      (∀ (r : ReadResult) (more : List ReadResult),
        r.status ≠ cfg.STCP_READ_TIMED_OUT → r.status ≠ cfg.STCP_READ_PERMANENT_FAILURE →
        cb.ackNo < r.pkt.hdr.seqNo →
        ∃ o, tcpReceive cfg
            { cb with timeout := Nat.iterate cfg.stcpNextTimeout N cfg.STCP_INITIAL_TIMEOUT }
            (r :: more) = some o ∧
          o.cb.timeout = cfg.STCP_INITIAL_TIMEOUT) := by
  subst hN
  refine ⟨?_, ?_, ?_⟩
  · rw [receiveCalls_timeouts cfg tos cb rest hall, hinit]
  · intro cap hcap hstep m
    obtain ⟨_, h2, h3⟩ := iterate_bounded cfg.stcpNextTimeout _ cap hcap hstep m
    exact ⟨h2, le_trans h2 h3⟩
  · intro r more hT hF hnew
    exact ⟨_, tcpReceive_fresh cfg _ r more hT hF hnew, rfl⟩

/-- Instance of C13 in the sample configuration (initial timeout 1000, doubling, cap 8000):
two timeouts give 4000, the values stay ordered and below the cap, and a new segment resets
the timeout. -/
theorem tcpReceive_backoff_witness :
    receiveCalls sampleConfig 2 (openInit sampleConfig 3 7000 5001 5000)
        ([timeoutRead, timeoutRead] ++ []) =
        some { rets := List.replicate 2 sampleConfig.STCP_READ_TIMED_OUT
               cb := { openInit sampleConfig 3 7000 5001 5000 with
                 timeout :=
                   Nat.iterate sampleConfig.stcpNextTimeout 2 sampleConfig.STCP_INITIAL_TIMEOUT }
               rest := [] } ∧
      (Nat.iterate sampleConfig.stcpNextTimeout 3 sampleConfig.STCP_INITIAL_TIMEOUT ≤
          Nat.iterate sampleConfig.stcpNextTimeout (3 + 1) sampleConfig.STCP_INITIAL_TIMEOUT ∧
        Nat.iterate sampleConfig.stcpNextTimeout 3 sampleConfig.STCP_INITIAL_TIMEOUT ≤ 8000) ∧
      ∃ o, tcpReceive sampleConfig
          { openInit sampleConfig 3 7000 5001 5000 with
            timeout :=
              Nat.iterate sampleConfig.stcpNextTimeout 2 sampleConfig.STCP_INITIAL_TIMEOUT }
          (segmentRead 18 500 7001 512 [] :: []) = some o ∧
        o.cb.timeout = sampleConfig.STCP_INITIAL_TIMEOUT :=
  have h := tcpReceive_backoff sampleConfig (openInit sampleConfig 3 7000 5001 5000) 2
    [timeoutRead, timeoutRead] [] rfl rfl (by decide)
  ⟨h.1,
    h.2.1 8000 (by decide)
      (fun t h1 h2 => by
        have e : sampleConfig.stcpNextTimeout t = min (2 * t) 8000 := rfl
        have e1 : sampleConfig.STCP_INITIAL_TIMEOUT = 1000 := rfl
        rw [e1] at h1
        rw [e]
        omega) 3,
    h.2.2 (segmentRead 18 500 7001 512 []) [] (by decide) (by decide) (by decide)⟩

/-- C14: for a payload length len with 0 <= len <= STCP_MSS (and len bytes readable at the
pointer), tcpSend makes one write of size sizeof(tcpheader) + len, carrying the flags passed
and len payload bytes; cb.inFlight grows by sizeof(tcpheader) + len and state, fd, seqNo,
ackNo, timeout, windowSize, sendersPort and receiversPort keep their values. -/
theorem tcpSend_accounting (cfg : Config) (cb : stcp_send_ctrl_blk) (flags : Nat)
    (data : List Nat) (len : Int) (h0 : 0 ≤ len) (_hmss : len ≤ cfg.STCP_MSS)
    (hdata : len ≤ data.length) :
    (tcpSend cfg cb flags data len).2.size = cfg.sizeofTcpheader + len ∧
      (tcpSend cfg cb flags data len).2.fd = cb.fd ∧
      (tcpSend cfg cb flags data len).2.pkt.hdr.flags = flags ∧
      ((tcpSend cfg cb flags data len).2.pkt.data.length : Int) = len ∧
      (tcpSend cfg cb flags data len).1.inFlight
        = cb.inFlight + (cfg.sizeofTcpheader + len) ∧
      (tcpSend cfg cb flags data len).1.state = cb.state ∧
      (tcpSend cfg cb flags data len).1.fd = cb.fd ∧
      (tcpSend cfg cb flags data len).1.seqNo = cb.seqNo ∧
      (tcpSend cfg cb flags data len).1.ackNo = cb.ackNo ∧
      (tcpSend cfg cb flags data len).1.timeout = cb.timeout ∧
      (tcpSend cfg cb flags data len).1.windowSize = cb.windowSize ∧
      (tcpSend cfg cb flags data len).1.sendersPort = cb.sendersPort ∧
      (tcpSend cfg cb flags data len).1.receiversPort = cb.receiversPort := by
  refine ⟨rfl, rfl, rfl, ?_, rfl, rfl, rfl, rfl, rfl, rfl, rfl, rfl, rfl⟩
  simp only [tcpSend, List.length_take]
  omega

/-- Instance of C14: three payload bytes with flag ACK in the sample configuration. -/
theorem tcpSend_accounting_witness :
    (tcpSend sampleConfig sampleCB 16 [1, 2, 3] 3).2.size = sampleConfig.sizeofTcpheader + 3 ∧
      (tcpSend sampleConfig sampleCB 16 [1, 2, 3] 3).2.fd = sampleCB.fd ∧
      (tcpSend sampleConfig sampleCB 16 [1, 2, 3] 3).2.pkt.hdr.flags = 16 ∧
      ((tcpSend sampleConfig sampleCB 16 [1, 2, 3] 3).2.pkt.data.length : Int) = 3 ∧
      (tcpSend sampleConfig sampleCB 16 [1, 2, 3] 3).1.inFlight
        = sampleCB.inFlight + (sampleConfig.sizeofTcpheader + 3) ∧
      (tcpSend sampleConfig sampleCB 16 [1, 2, 3] 3).1.state = sampleCB.state ∧
      (tcpSend sampleConfig sampleCB 16 [1, 2, 3] 3).1.fd = sampleCB.fd ∧
      (tcpSend sampleConfig sampleCB 16 [1, 2, 3] 3).1.seqNo = sampleCB.seqNo ∧
      (tcpSend sampleConfig sampleCB 16 [1, 2, 3] 3).1.ackNo = sampleCB.ackNo ∧
      (tcpSend sampleConfig sampleCB 16 [1, 2, 3] 3).1.timeout = sampleCB.timeout ∧
      (tcpSend sampleConfig sampleCB 16 [1, 2, 3] 3).1.windowSize = sampleCB.windowSize ∧
      (tcpSend sampleConfig sampleCB 16 [1, 2, 3] 3).1.sendersPort = sampleCB.sendersPort ∧
      (tcpSend sampleConfig sampleCB 16 [1, 2, 3] 3).1.receiversPort = sampleCB.receiversPort :=
  tcpSend_accounting sampleConfig sampleCB 16 [1, 2, 3] 3 (by decide) (by decide) (by decide)

/-- C15, evaluation at the failing input.  The control block has ackNo 100.  A call of
tcpReceive reads a duplicate (header seqNo 50, three payload bytes) and then, on the retry, a
timeout: afterwards ackNo is 53, lower than before, although 50 + 3 does not wrap around.  The
same reads given to stcp_send for a three-byte buffer leave ackNo 53 as well. -/
theorem tcpReceive_duplicate_lowers_ackNo :
    sampleCB.ackNo = 100 ∧
    (tcpReceive sampleConfig sampleCB [segmentRead 16 50 9000 512 [1, 2, 3], timeoutRead]).map
      (fun o => o.cb.ackNo) = some 53 ∧
    (50 + 3 < 2 ^ 32 ∧ (53 : Nat) < 100) ∧
    (match stcp_send sampleConfig sampleCB [1, 2, 3] 3
        [segmentRead 16 50 9000 512 [1, 2, 3], timeoutRead] with
      | .done out => some (out.ret, out.cb.ackNo)
      | _ => none) = some (1, 53) := by
  decide

/-- C17: when the first read of tcpReceive reports a permanent failure, tcpReceive returns
STCP_READ_PERMANENT_FAILURE and the control block is the one passed in, timeout and inFlight
included.  The timeout code and the failure code are assumed distinct. -/
theorem tcpReceive_failure_outcome (cfg : Config)
    (hne : cfg.STCP_READ_TIMED_OUT ≠ cfg.STCP_READ_PERMANENT_FAILURE)
    (cb : stcp_send_ctrl_blk) (r : ReadResult) (rest : List ReadResult)
    (hfail : r.status = cfg.STCP_READ_PERMANENT_FAILURE) :
    tcpReceive cfg cb (r :: rest) =
      some { ret := cfg.STCP_READ_PERMANENT_FAILURE, cb := cb, rest := rest } :=
  tcpReceive_failed cfg cb r rest (by rw [hfail]; exact fun h => hne h.symm) hfail

/-- Instance of C17 in the sample configuration. -/
theorem tcpReceive_failure_outcome_witness :
    tcpReceive sampleConfig sampleCB (failureRead :: []) =
      some { ret := sampleConfig.STCP_READ_PERMANENT_FAILURE, cb := sampleCB, rest := [] } :=
  tcpReceive_failure_outcome sampleConfig (by decide) sampleCB failureRead [] (by decide)

/-- C18: for every uid below 2^32 the assertion of getDefaultPort holds and the port returned
is ((uid mod 32256) * 2) + 1024, an even number between 1024 and 65534, so that the default
sender port, one more, is at most 65535. -/
theorem getDefaultPort_in_range (uid : Nat) (huid : uid < 2 ^ 32) :
    ∃ port : Nat, getDefaultPort uid = some (port : Int) ∧
      port = (uid % 32256) * 2 + 1024 ∧ port % 2 = 0 ∧ 1024 ≤ port ∧ port ≤ 65534 ∧
      port + 1 ≤ 65535 := by
  have hmod : uid % 32256 < 32256 := Nat.mod_lt _ (by norm_num)
  refine ⟨(uid % 32256) * 2 + 1024, ?_, rfl, by omega, by omega, by omega, by omega⟩
  have h1 : uid % 2 ^ 32 = uid := Nat.mod_eq_of_lt huid
  have h2 : ((uid % 32256) * 2 + 1024) % 2 ^ 32 = (uid % 32256) * 2 + 1024 :=
    Nat.mod_eq_of_lt (by omega)
  have h3 : (32768 - 512 : Nat) = 32256 := rfl
  unfold getDefaultPort
  simp only [h1, h3, h2]
  rw [if_pos]
  constructor
  · exact_mod_cast (by omega : 1024 ≤ (uid % 32256) * 2 + 1024)
  · have : ((uid % 32256 * 2 + 1024 : Nat) : Int) ≤ 65534 := by exact_mod_cast (by omega)
    omega

/-- Instance of C18: the largest uid. -/
theorem getDefaultPort_in_range_witness :
    ∃ port : Nat, getDefaultPort 4294967295 = some (port : Int) ∧
      port = (4294967295 % 32256) * 2 + 1024 ∧ port % 2 = 0 ∧ 1024 ≤ port ∧ port ≤ 65534 ∧
      port + 1 ≤ 65535 :=
  getDefaultPort_in_range 4294967295 (by decide)

/-! ## In-flight accounting -/

/-- The lengths delivered by two lists of reads add up. -/
theorem segBytes_append (cfg : Config) (a b : List ReadResult) :
    segBytes cfg (a ++ b) = segBytes cfg a + segBytes cfg b := by
  induction a with
  | nil => simp [segBytes]
  | cons r a ih =>
    have e : ∀ l, segBytes cfg (r :: l) =
        if r.status = cfg.STCP_READ_TIMED_OUT then segBytes cfg l
        else if r.status = cfg.STCP_READ_PERMANENT_FAILURE then segBytes cfg l
        else r.status + segBytes cfg l := fun _ => rfl
    rw [List.cons_append, e, e, ih]
    split_ifs <;> ring

/-- The sizes written in two traces add up. -/
theorem sentBytes_append (a b : List Event) :
    sentBytes (a ++ b) = sentBytes a + sentBytes b := by
  induction a with
  | nil => simp [sentBytes]
  | cons e a ih =>
    cases e with
    | sent w =>
      show w.size + sentBytes (a ++ b) = w.size + sentBytes a + sentBytes b
      rw [ih]; ring
    | received r =>
      show sentBytes (a ++ b) = sentBytes a + sentBytes b
      exact ih

/-- A call of tcpReceive that returns has consumed a prefix of the script and has lowered
cb.inFlight by the total length of the segments in that prefix. -/
theorem tcpReceive_accounting (cfg : Config) :
    ∀ (reads : List ReadResult) (cb : stcp_send_ctrl_blk) (o : RecvOut),
      tcpReceive cfg cb reads = some o →
        ∃ consumed, reads = consumed ++ o.rest ∧
          o.cb.inFlight = cb.inFlight - segBytes cfg consumed := by
  intro reads
  induction reads with
  | nil => intro cb o h; simp [tcpReceive] at h
  | cons r rest ih =>
    intro cb o h
    by_cases hT : r.status = cfg.STCP_READ_TIMED_OUT
    · rw [tcpReceive_timedOut cfg cb r rest hT] at h
      cases h
      exact ⟨[r], rfl, by simp [segBytes, hT]⟩
    · by_cases hF : r.status = cfg.STCP_READ_PERMANENT_FAILURE
      · rw [tcpReceive_failed cfg cb r rest hT hF] at h
        cases h
        refine ⟨[r], rfl, ?_⟩
        simp only [segBytes]
        rw [if_neg hT, if_pos hF]
        simp
      · have hseg : ∀ l, segBytes cfg (r :: l) = r.status + segBytes cfg l := by
          intro l
          simp only [segBytes]
          rw [if_neg hT, if_neg hF]
        by_cases hd : r.pkt.hdr.seqNo ≤ cb.ackNo
        · rw [tcpReceive_duplicate cfg cb r rest hT hF hd] at h
          cases hin : tcpReceive cfg cb rest with
          | none => simp [hin] at h
          | some inner =>
            simp only [hin, Option.map_some', Option.some.injEq] at h
            subst h
            obtain ⟨consumed, hsplit, hfl⟩ := ih cb inner hin
            refine ⟨r :: consumed, by rw [hsplit]; rfl, ?_⟩
            rw [hseg]
            show inner.cb.inFlight - r.status = _
            rw [hfl]
            ring
        · rw [tcpReceive_fresh cfg cb r rest hT hF (Nat.lt_of_not_le hd)] at h
          cases h
          refine ⟨[r], rfl, ?_⟩
          rw [hseg]
          show cb.inFlight - r.status = _
          simp [segBytes]

/-- A returned run of the send loop has consumed a prefix of the script; cb.inFlight has grown
by what was written and fallen by the total length of the segments read. -/
theorem sendLoop_accounting (cfg : Config) (data : List Nat) (length : Int) :
    ∀ (fuel : Nat) (i : Int) (cb : stcp_send_ctrl_blk) (reads : List ReadResult) (out : CallOut),
      sendLoop cfg data length fuel i cb reads = .done out →
        ∃ consumed, reads = consumed ++ out.rest ∧
          out.cb.inFlight = cb.inFlight + sentBytes out.trace - segBytes cfg consumed := by
  intro fuel
  induction fuel with
  | zero => intro i cb reads out h; simp [sendLoop] at h
  | succ fuel ih =>
    intro i cb reads out h
    by_cases hi : i < length
    · cases hrecv : tcpReceive cfg
        (tcpSend cfg cb cfg.ACK (data.drop i.toNat) (min cfg.STCP_MSS (length - i))).1 reads with
      | none => rw [sendLoop_blocked cfg data length fuel i cb reads hi hrecv] at h; simp at h
      | some o =>
        obtain ⟨c1, hsplit1, hfl1⟩ := tcpReceive_accounting cfg reads _ o hrecv
        have hsent : (tcpSend cfg cb cfg.ACK (data.drop i.toNat)
            (min cfg.STCP_MSS (length - i))).1.inFlight = cb.inFlight +
            (tcpSend cfg cb cfg.ACK (data.drop i.toNat)
              (min cfg.STCP_MSS (length - i))).2.size := rfl
        rw [hsent] at hfl1
        by_cases hT : o.ret = cfg.STCP_READ_TIMED_OUT
        · rw [sendLoop_timedOut cfg data length fuel i cb reads o hi hrecv hT] at h
          obtain ⟨o2, hrun, hout⟩ := Run.after_eq_done _ _ _ h
          obtain ⟨c2, hsplit2, hfl2⟩ := ih i o.cb o.rest o2 hrun
          subst hout
          refine ⟨c1 ++ c2, ?_, ?_⟩
          · rw [List.append_assoc, ← hsplit2]; exact hsplit1
          · rw [segBytes_append, sentBytes_append]
            show o2.cb.inFlight = _
            rw [hfl2, hfl1]
            simp only [sentBytes]
            ring
        · by_cases hF : o.ret = cfg.STCP_READ_PERMANENT_FAILURE
          · rw [sendLoop_failed cfg data length fuel i cb reads o hi hrecv hT hF] at h
            cases h
            refine ⟨c1, hsplit1, ?_⟩
            show o.cb.inFlight = _
            rw [hfl1]
            simp only [sentBytes]
            ring
          · rw [sendLoop_acked cfg data length fuel i cb reads o hi hrecv hT hF] at h
            obtain ⟨o2, hrun, hout⟩ := Run.after_eq_done _ _ _ h
            obtain ⟨c2, hsplit2, hfl2⟩ := ih (i + cfg.STCP_MSS) o.cb o.rest o2 hrun
            subst hout
            refine ⟨c1 ++ c2, ?_, ?_⟩
            · rw [List.append_assoc, ← hsplit2]; exact hsplit1
            · rw [segBytes_append, sentBytes_append]
              show o2.cb.inFlight = _
              rw [hfl2, hfl1]
              simp only [sentBytes]
              ring
    · rw [sendLoop_exit cfg data length fuel i cb reads hi] at h
      cases h
      exact ⟨[], rfl, by simp [sentBytes, segBytes]⟩

/-- A returned run of the loop of stcp_open has consumed a prefix of the script; the control
block returned, if any, has cb.inFlight grown by what was written and fallen by the total
length of the segments read. -/
theorem openLoop_accounting (cfg : Config) :
    ∀ (fuel : Nat) (cb : stcp_send_ctrl_blk) (reads : List ReadResult) (out : OpenOut),
      openLoop cfg fuel cb reads = .done out →
        ∃ consumed, reads = consumed ++ out.rest ∧
          ∀ c, out.ret = some c →
            c.inFlight = cb.inFlight + sentBytes out.trace - segBytes cfg consumed := by
  intro fuel
  induction fuel with
  | zero => intro cb reads out h; simp [openLoop] at h
  | succ fuel ih =>
    intro cb reads out h
    cases hrecv : tcpReceive cfg (synSent cfg 0 cb) reads with
    | none => rw [openLoop_blocked cfg fuel cb reads hrecv] at h; simp at h
    | some o =>
      obtain ⟨c1, hsplit1, hfl1⟩ := tcpReceive_accounting cfg reads _ o hrecv
      have hsent : (synSent cfg 0 cb).inFlight = cb.inFlight + (synWrite cfg cb).size := by
        simp [synSent, synWrite, tcpSend]
      rw [hsent] at hfl1
      by_cases hT : o.ret = cfg.STCP_READ_TIMED_OUT
      · rw [openLoop_timedOut cfg fuel cb reads o hrecv hT] at h
        obtain ⟨o2, hrun, hout⟩ := Run.afterOpen_eq_done _ _ _ h
        obtain ⟨c2, hsplit2, hfl2⟩ := ih o.cb o.rest o2 hrun
        subst hout
        refine ⟨c1 ++ c2, ?_, ?_⟩
        · rw [List.append_assoc, ← hsplit2]; exact hsplit1
        · intro c hc
          rw [segBytes_append, sentBytes_append, hfl2 c hc, hfl1]
          simp only [sentBytes]
          ring
      · rw [openLoop_returns cfg fuel cb reads o hrecv hT] at h
        cases h
        refine ⟨c1, hsplit1, ?_⟩
        intro c hc
        by_cases hF : o.ret = cfg.STCP_READ_PERMANENT_FAILURE
        · simp [hF] at hc
        · simp only [hF, if_false, Option.some.injEq] at hc
          subst hc
          show o.cb.inFlight = _
          rw [hfl1]
          simp only [sentBytes]
          ring

/-- C16 as stated fails.  stcp_open receives a SYN|ACK that advertises a window of 1000 bytes;
the control block returned has inFlight 0 and windowSize 1000.  stcp_send then sends a buffer
of 1400 bytes and receives an acknowledgment of 20 bytes that advertises 1000 again: it
returns STCP_SUCCESS with inFlight 1400 and windowSize 1000. -/
theorem inFlight_exceeds_window :
    ((stcp_open sampleConfig 3 7000 5001 5000
        [segmentRead 18 500 7001 1000 [], segmentRead 16 502 8401 1000 []]).opened.map
      (fun p => (p.1.inFlight, p.1.windowSize, p.2.length))) = some (0, 1000, 1) ∧
    (((stcp_open sampleConfig 3 7000 5001 5000
        [segmentRead 18 500 7001 1000 [], segmentRead 16 502 8401 1000 []]).opened.bind
      (fun p => (stcp_send sampleConfig p.1 (List.replicate 1400 0) 1400 p.2).final)).map
      (fun q => (q.1, q.2.inFlight, q.2.windowSize))) = some (1, 1400, 1000) ∧
    ¬ ((1400 : Int) ≤ 1000) := by
  decide

/-- C16, amended: whenever stcp_open, stcp_send or stcp_close returns, whatever the receive
outcomes, the call has consumed a prefix of the reads, and cb.inFlight equals its value on
entry (0 for stcp_open) plus the total size of the segments the call wrote minus the total
length of the segments it read. -/
theorem inFlight_accounting (cfg : Config) :
    (∀ (fd : Int) (rnd : Nat) (sendersPort receiversPort : Int) (reads : List ReadResult)
        (out : OpenOut) (c : stcp_send_ctrl_blk),
      stcp_open cfg fd rnd sendersPort receiversPort reads = .done out → out.ret = some c →
        ∃ consumed, reads = consumed ++ out.rest ∧
          c.inFlight = sentBytes out.trace - segBytes cfg consumed) ∧
    (∀ (cb : stcp_send_ctrl_blk) (data : List Nat) (length : Int) (reads : List ReadResult)
        (out : CallOut),
      stcp_send cfg cb data length reads = .done out →
        ∃ consumed, reads = consumed ++ out.rest ∧
          out.cb.inFlight = cb.inFlight + sentBytes out.trace - segBytes cfg consumed) ∧
    (∀ (cb : stcp_send_ctrl_blk) (reads : List ReadResult) (out : CallOut),
      stcp_close cfg cb reads = .done out →
        ∃ consumed, reads = consumed ++ out.rest ∧
          out.cb.inFlight = cb.inFlight + sentBytes out.trace - segBytes cfg consumed) := by
  refine ⟨?_, ?_, ?_⟩
  · intro fd rnd sendersPort receiversPort reads out c hrun hc
    obtain ⟨consumed, hsplit, hfl⟩ := openLoop_accounting cfg _ _ reads out hrun
    refine ⟨consumed, hsplit, ?_⟩
    rw [hfl c hc]
    simp [openInit]
  · intro cb data length reads out hrun
    exact sendLoop_accounting cfg data length _ 0 cb reads out hrun
  · intro cb reads out hrun
    cases hrecv : tcpReceive cfg (closeSent cfg cb) reads with
    | none =>
      unfold closeSent at hrecv
      simp [stcp_close, hrecv] at hrun
    | some o =>
      obtain ⟨consumed, hsplit, hfl⟩ := tcpReceive_accounting cfg reads _ o hrecv
      unfold closeSent at hrecv
      simp only [stcp_close, hrecv, Run.done.injEq] at hrun
      subst hrun
      refine ⟨consumed, hsplit, ?_⟩
      show o.cb.inFlight + (cfg.sizeofTcpheader + 0) = _
      rw [hfl]
      simp only [sentBytes, closeSent, tcpSend]
      ring

/-- Instance of the amended C16: stcp_close entered with 60 bytes in flight writes two
segments of 20 bytes and reads one segment of 20 bytes, which leaves 80 bytes in flight. -/
theorem inFlight_accounting_witness :
    ∃ consumed, [segmentRead 16 101 7000 512 []] = consumed ++ [] ∧
      (80 : Int) = sampleCB.inFlight +
        sentBytes [.sent (tcpSend sampleConfig sampleCB 17 [] 0).2, .received 20,
          .sent (tcpSend sampleConfig
            (applySegment sampleConfig (closeSent sampleConfig sampleCB)
              (segmentRead 16 101 7000 512 [])) 16 [] 0).2]
        - segBytes sampleConfig consumed :=
  (inFlight_accounting sampleConfig).2.2 sampleCB [segmentRead 16 101 7000 512 []]
    { ret := 1
      cb := { sampleCB with
        state := 0, seqNo := 7000, ackNo := 101, timeout := 1000, windowSize := 512
        inFlight := 80 }
      rest := []
      trace := [.sent (tcpSend sampleConfig sampleCB 17 [] 0).2, .received 20,
        .sent (tcpSend sampleConfig
          (applySegment sampleConfig (closeSent sampleConfig sampleCB)
            (segmentRead 16 101 7000 512 [])) 16 [] 0).2] }
    (by decide)

end STCP

/-! ## SMTP server: command sequencing -/

namespace SMTP

/-- In the wrong state checkstate sends the reply 503, returns a value other than 0 and leaves
the state record as it is. -/
theorem checkstate_mismatch (ms : smtp_state) (st : State) (net : Net) (h : ms.state ≠ st) :
    (checkstate ms st net).ret ≠ 0 ∧ (checkstate ms st net).ms = ms ∧
      (checkstate ms st net).replies = [(reply503, net.sendStatus net.sendCount)] ∧
      (checkstate ms st net).saved = [] ∧
      (checkstate ms st net).net = { net with sendCount := net.sendCount + 1 } := by
  by_cases hs : (send_formatted net).1 ≤ 0
  · have e : checkstate ms st net =
        { ret := -1, ms := ms, net := (send_formatted net).2
          replies := [(reply503, (send_formatted net).1)], saved := [] } := by
      unfold checkstate
      rw [if_pos h]
      exact if_pos hs
    rw [e]
    exact ⟨show (-1 : Int) ≠ 0 by decide, rfl, rfl, rfl, rfl⟩
  · have e : checkstate ms st net =
        { ret := 1, ms := ms, net := (send_formatted net).2
          replies := [(reply503, (send_formatted net).1)], saved := [] } := by
      unfold checkstate
      rw [if_pos h]
      exact if_neg hs
    rw [e]
    exact ⟨show (1 : Int) ≠ 0 by decide, rfl, rfl, rfl, rfl⟩

/-- In the right state checkstate sends nothing and returns 0. -/
theorem checkstate_match (ms : smtp_state) (st : State) (net : Net) (h : ms.state = st) :
    checkstate ms st net = { ret := 0, ms := ms, net := net, replies := [], saved := [] } := by
  unfold checkstate
  rw [if_neg (not_not.mpr h)]

/-- C19: do_mail called in a state other than idle, and do_rcpt or do_data called in a state
other than sending, make the one reply 503, return 1 whatever send_formatted returned, and
leave the state record (state, sender, recipient list, mail text) as it was; and do_data
makes a reply with code 354 only when the state is sending and the recipient list is not
empty. -/
theorem command_sequencing (H : Helpers) (ms : smtp_state) (net : Net) :
    (ms.state ≠ State.idle →
      ∃ out, do_mail ms net = .done out ∧ out.ret = 1 ∧
        out.replies = [(reply503, net.sendStatus net.sendCount)] ∧ reply503.code = 503 ∧
        out.ms = ms ∧ out.saved = []) ∧
    (ms.state ≠ State.sending →
      ∃ out, do_rcpt H ms net = .done out ∧ out.ret = 1 ∧
        out.replies = [(reply503, net.sendStatus net.sendCount)] ∧
        out.ms = ms ∧ out.saved = []) ∧
    (ms.state ≠ State.sending →
      ∃ out, do_data ms net = .done out ∧ out.ret = 1 ∧
        out.replies = [(reply503, net.sendStatus net.sendCount)] ∧
        out.ms = ms ∧ out.saved = []) ∧
    (∀ p ∈ (do_data ms net).replies, p.1.code = 354 →
      ms.state = State.sending ∧ ms.receivers ≠ []) := by
  refine ⟨?_, ?_, ?_, ?_⟩
  · intro h
    obtain ⟨h0, h1, h2, h3, _⟩ := checkstate_mismatch ms State.idle net h
    refine ⟨{ checkstate ms State.idle net with ret := 1 }, ?_, rfl, h2, rfl, h1, h3⟩
    unfold do_mail
    simp only [h0, ne_eq, not_false_eq_true, if_true]
  · intro h
    obtain ⟨h0, h1, h2, h3, _⟩ := checkstate_mismatch ms State.sending net h
    refine ⟨{ checkstate ms State.sending net with ret := 1 }, ?_, rfl, h2, h1, h3⟩
    unfold do_rcpt
    simp only [h0, ne_eq, not_false_eq_true, if_true]
  · intro h
    obtain ⟨h0, h1, h2, h3, _⟩ := checkstate_mismatch ms State.sending net h
    refine ⟨{ checkstate ms State.sending net with ret := 1 }, ?_, rfl, h2, h1, h3⟩
    unfold do_data
    simp only [h0, ne_eq, not_false_eq_true, if_true]
  · intro p hp hcode
    by_cases hst : ms.state = State.sending
    · refine ⟨hst, ?_⟩
      intro hempty
      have hc := checkstate_match ms State.sending net hst
      have hidle : ms.state ≠ State.idle := by rw [hst]; decide
      obtain ⟨_, _, h2, _, _⟩ := checkstate_mismatch ms State.idle net hidle
      unfold do_data at hp
      simp only [hc, ne_eq, not_true_eq_false, if_false, hempty, List.length_nil, if_true,
        CmdRun.replies, CmdOut.after, h2, List.nil_append, List.mem_singleton] at hp
      rw [hp] at hcode
      have hbad : reply503.code = 354 := hcode
      exact absurd hbad (by decide)
    · obtain ⟨h0, _, h2, _, _⟩ := checkstate_mismatch ms State.sending net hst
      unfold do_data at hp
      simp only [h0, ne_eq, not_false_eq_true, if_true, CmdRun.replies, h2,
        List.mem_singleton] at hp
      rw [hp] at hcode
      have hbad : reply503.code = 354 := hcode
      exact absurd hbad (by decide)

/-- Instance of C19: MAIL before HELO, on a connection where the send fails with -1. -/
theorem command_sequencing_witness :
    ∃ out, do_mail (sampleState State.Undefined [['M', 'A', 'I', 'L'], ['x']] [])
        { sendStatus := fun _ => -1, sendCount := 0, lines := [] } = .done out ∧ out.ret = 1 ∧
      out.replies = [(reply503, -1)] ∧ reply503.code = 503 ∧
      out.ms = sampleState State.Undefined [['M', 'A', 'I', 'L'], ['x']] [] ∧ out.saved = [] :=
  (command_sequencing { is_valid_user := fun _ => true, user_list_add := fun l u => u :: l }
    (sampleState State.Undefined [['M', 'A', 'I', 'L'], ['x']] [])
    { sendStatus := fun _ => -1, sendCount := 0, lines := [] }).1 (by decide)

end SMTP
